import Mathlib

/-!
Shallow embedding of the syzkaller `sysgen` type-descriptor compiler
(`sysgen/sysgen.go`).  Text emission to the output writer is modelled as
construction of IR values; the process-global `skipCurrentSyscall` string is
threaded explicitly through every function that could read or write it;
`failf` (which exits the process) is modelled as the `fatal` error of an
`Except`; the potentially unbounded recursions (the resource base-chain walk
and the recursive type compiler) take an explicit fuel argument, with fuel
exhaustion reported as `outOfFuel`, distinct from fatal errors.  Go byte
strings are modelled as Lean `String`s with byte length modelled as character
count (all tokens of interest are ASCII); Go `uint64` values are `Nat`s and
Go `int64` arithmetic is modelled exactly, with explicit two's-complement
wrapping where the Go code can overflow or shift past the word width.
-/

namespace Sysgen

/-- Errors of the embedded compiler: `fatal` models Go `failf` (process
abort); `outOfFuel` is the fuel-exhaustion marker of the embedding, used to
make nontermination of the source loops observable. -/
inductive GenErr where
  | fatal (msg : String)
  | outOfFuel
deriving DecidableEq, Repr

/-- Direction of an argument (Go `DirIn` / `DirOut` / `DirInOut`). -/
inductive Dir where
  | DirIn
  | DirOut
  | DirInOut
deriving DecidableEq, Repr

/-- Association-list lookup, first match wins (model of Go map lookup for
tables whose construction keeps keys unique). -/
def alookup {α : Type} [DecidableEq α] {β : Type} : List (α × β) → α → Option β
  | [], _ => none
  | (k, v) :: r, k' => if k = k' then some v else alookup r k'

/-- The per-architecture constant table: symbol name to `uint64` value. -/
abbrev Consts := List (String × Nat)

/-- A resource definition (`sysparser.Resource`): name, base (parent resource
name or primitive integer kind token), raw value tokens. -/
structure Resource where
  name : String
  base : String
  values : List String
deriving DecidableEq, Repr

/-- A struct/union definition (`sysparser.Struct`): each field is
(field name, type name, type parameters). -/
structure Struct where
  name : String
  flds : List (String × String × List String)
  isUnion : Bool
  packed : Bool
  varlen : Bool
  align : Nat
deriving DecidableEq, Repr

/-- A syscall description (`sysparser.Syscall`): each argument is
(field name, type name, type parameters); `ret` is the raw token list of the
return type spec (empty when no return type is declared). -/
structure Syscall where
  name : String
  callName : String
  args : List (String × String × List String)
  ret : List String
deriving DecidableEq, Repr

/-- The parsed description (`sysparser.Description`), with maps modelled as
association lists. -/
structure Description where
  syscalls : List Syscall
  structs : List (String × Struct)
  resources : List (String × Resource)
  flags : List (String × List String)
  strFlags : List (String × List String)
  unnamed : List (String × List String)
deriving DecidableEq, Repr

/-- Key of the struct/union instance table (Go `structKey`). -/
structure StructKey where
  name : String
  field : String
  dir : String
deriving DecidableEq, Repr

/-- Common header of every compiled node (Go `TypeCommon`). -/
structure TypeCommon where
  name : String
  dir : Dir
  opt : Bool
deriving DecidableEq, Repr

/-- Kind payload of a compiled `IntType`. -/
inductive IntKind where
  | intPlain
  | intRange (rangeBegin rangeEnd : String)
  | intFileoff
  | intSignalno
deriving DecidableEq, Repr

/-- The compiled IR nodes, one constructor per node shape that
`generateArg` can emit.  Range bounds are kept as the strings the Go code
emits (already resolved through the constant table by `parseRange`). -/
inductive IRType where
  | intT (c : TypeCommon) (size : Nat) (bigEndian : Bool) (kind : IntKind)
  | bufferBlobRand (c : TypeCommon)
  | bufferBlobRange (c : TypeCommon) (rangeBegin rangeEnd : String)
  | bufferString (c : TypeCommon) (subkind : String) (values : List String)
  | bufferAlgType (c : TypeCommon)
  | bufferAlgName (c : TypeCommon)
  | bufferFilename (c : TypeCommon)
  | vmaT (c : TypeCommon) (rangeBegin rangeEnd : String)
  | lenT (c : TypeCommon) (buf : String) (size : Nat) (bigEndian : Bool) (byteSize : Nat)
  | flagsT (c : TypeCommon) (size : Nat) (bigEndian : Bool) (vals : List String)
  | constT (c : TypeCommon) (size : Nat) (bigEndian : Bool) (val : String)
  | procT (c : TypeCommon) (size : Nat) (bigEndian : Bool) (valuesStart valuesPerProc : Int)
  | ptrT (c : TypeCommon) (inner : IRType)
  | arrayRandLen (c : TypeCommon) (elem : IRType)
  | arrayRangeLen (c : TypeCommon) (elem : IRType) (rangeBegin rangeEnd : String)
  | structRef (key : StructKey)
  | resourceRef (c : TypeCommon) (resName : String)
deriving DecidableEq, Repr

/-- Pointer width of the generator (`const ptrSize = 8`). -/
def ptrSize : Nat := 8

/-- Go `fmtDir`: parse a direction token, fatal on anything else. -/
def fmtDir (s : String) : Except GenErr Dir :=
  match s with
  | "in" => .ok .DirIn
  | "out" => .ok .DirOut
  | "inout" => .ok .DirInOut
  | _ => .error (.fatal s!"bad direction {s}")

/-- Go `skipSyscall`: the write to the process-global skip reason.  It only
overwrites the flag when the flag is already non-empty. -/
def skipSyscall (why : String) (skip : String) : String :=
  if skip ≠ "" then why else skip

/-- Go `isIdentifier`, per-character test: underscore or letter anywhere,
digit allowed except in first position. -/
def isIdentChar (isFirst : Bool) (c : Char) : Bool :=
  c = '_' || ('a' ≤ c && c ≤ 'z') || ('A' ≤ c && c ≤ 'Z') ||
    (!isFirst && ('0' ≤ c && c ≤ '9'))

def isIdentifierAux : Bool → List Char → Bool
  | _, [] => true
  | isFirst, c :: r => isIdentChar isFirst c && isIdentifierAux false r

/-- Go `isIdentifier` (note: the empty string counts as an identifier, as in
the source, whose loop body never runs on it). -/
def isIdentifier (s : String) : Bool := isIdentifierAux true s.toList

/-- Go `decodeIntType`: strip a `be` suffix (big-endian marker), then map
the primitive integer kind token to its byte width; the strip-then-switch
of the source is flattened to the ten token spellings it accepts. -/
def decodeIntType (typ : String) : Except GenErr (Nat × Bool) :=
  match typ with
  | "int8" => .ok (1, false)
  | "int16" => .ok (2, false)
  | "int32" => .ok (4, false)
  | "int64" => .ok (8, false)
  | "intptr" => .ok (8, false)
  | "int8be" => .ok (1, true)
  | "int16be" => .ok (2, true)
  | "int32be" => .ok (4, true)
  | "int64be" => .ok (8, true)
  | "intptrbe" => .ok (8, true)
  | _ => .error (.fatal s!"unknown type {typ}")

/-- Go `decodeByteSizeType`: byte-granularity multiplier of `bytesize*`. -/
def decodeByteSizeType (typ : String) : Except GenErr Nat :=
  match typ with
  | "bytesize" => .ok 1
  | "bytesize2" => .ok 2
  | "bytesize4" => .ok 4
  | "bytesize8" => .ok 8
  | _ => .error (.fatal s!"unknown type {typ}")

/-- Colon splitting (Go `strings.Split(s, ":")`), structurally recursive
over the character list; always returns at least one group. -/
def splitColon : List Char → List (List Char)
  | [] => [[]]
  | c :: r =>
    if c = ':' then [] :: splitColon r
    else
      match splitColon r with
      | [] => [[c]]
      | g :: gs => (c :: g) :: gs

/-- Go `parseRange`: a range token is one value or two colon-separated
values, each passed through the constant table when it resolves. -/
def parseRange (buffer : String) (consts : Consts) : Except GenErr (String × String) :=
  let lookupConst := fun (n : String) =>
    match alookup consts n with
    | some v => toString v
    | none => n
  match (splitColon buffer.toList).map (fun l => String.mk l) with
  | [x] => .ok (lookupConst x, lookupConst x)
  | [x, y] => .ok (lookupConst x, lookupConst y)
  | _ => .error (.fatal s!"bad range {buffer}")

/-- Digit-string to value; `none` when empty or a non-digit appears. -/
def digitsToNat : List Char → Option Nat → Option Nat
  | [], acc => acc
  | c :: r, acc =>
    match acc with
    | none => none
    | some n =>
      if '0' ≤ c && c ≤ '9' then digitsToNat r (some (n * 10 + (c.toNat - 48)))
      else none

/-- Go `strconv.ParseUint(s, 10, 64)`: unsigned decimal, no sign allowed,
must fit in 64 bits. -/
def parseUint10 (s : String) : Option Nat :=
  match s.toList with
  | [] => none
  | l =>
    match digitsToNat l (some 0) with
    | none => none
    | some n => if n < 2 ^ 64 then some n else none

/-- Go `strconv.ParseInt(s, 10, 64)`: optional sign, decimal digits, must
fit in a signed 64-bit word. -/
def parseInt10 (s : String) : Option Int :=
  let signed : Bool × List Char :=
    match s.toList with
    | c :: r => if c = '-' then (true, r) else if c = '+' then (false, r) else (false, s.toList)
    | [] => (false, [])
  match signed.2 with
  | [] => none
  | l =>
    match digitsToNat l (some 0) with
    | none => none
    | some n =>
      let v : Int := if signed.1 then -(n : Int) else (n : Int)
      if -(2 : Int) ^ 63 ≤ v ∧ v < (2 : Int) ^ 63 then some v else none

/-- Reinterpret an integer as a signed 64-bit word (two's complement), the
result of any Go `int64` operation that can overflow. -/
def int64wrap (x : Int) : Int :=
  let m := x % (2 : Int) ^ 64
  if m < (2 : Int) ^ 63 then m else m - (2 : Int) ^ 64

/-- Go `int64(1) << n` (the shift in the proc-type overflow checks, where
the untyped constant 1 takes type `int64` from the comparison context):
shifting by the word width or more yields 0. -/
def goShl1int64 (n : Nat) : Int :=
  if 64 ≤ n then 0 else int64wrap ((2 : Int) ^ n)

/-- The scan of positional parameters that removes the first literal `opt`
marker and records optionality (`generateArg` preprocessing). -/
def stripOpt : List String → List String × Bool
  | [] => ([], false)
  | x :: r =>
    if x = "opt" then (r, true)
    else
      let p := stripOpt r
      (x :: p.1, p.2)

/-- The `common()` closure of `generateArg`: builds the `TypeCommon` header
from the current name, direction string and optionality; fatal when the
direction token is invalid. -/
def mkCommon (name dirStr : String) (opt : Bool) : Except GenErr TypeCommon :=
  match fmtDir dirStr with
  | .error e => .error e
  | .ok d => .ok ⟨name, d, opt⟩

/-- Arity-mismatch message of `generateArg`. -/
def arityMsg (typ name : String) (want got : Nat) : String :=
  s!"wrong number of arguments for {typ} arg {name}, want {want}, got {got}"

/-- The `canBeArg` failure message after the dispatch switch. -/
def canBeArgMsg (name typ : String) : String :=
  s!"{name} {typ} cannot be syscall argument/return"

/-- The null terminator appended to every enumerated string value. -/
def nulChar : Char := Char.ofNat 0

def nulStr : String := String.mk [nulChar]

/-- The zero-padding loop of the string case: append null bytes until the
value reaches `size` characters. -/
def padZeros (s : String) (size : Nat) : String :=
  s ++ String.mk (List.replicate (size - s.length) nulChar)

/-- Enumerated values and sub-kind of a `string` construct (before the null
terminator is appended): a quoted literal yields one value, any other first
parameter names a string-flag set. -/
def stringVals (desc : Description) (a : List String) :
    Except GenErr (List String × String) :=
  match a with
  | [] => .ok ([], "")
  | a0 :: _ =>
    if a0.toList.head? = some (Char.ofNat 34) then
      .ok ([String.mk (a0.toList.drop 1).dropLast], "")
    else
      match alookup desc.strFlags a0 with
      | some vs => .ok (vs, a0)
      | none => .error (.fatal s!"unknown string flags {a0}")

/-- Resolution of the fixed-length parameter of a `string` construct: the
constant table first, a decimal literal otherwise. -/
def resolveStringLen (consts : Consts) (tok : String) : Except GenErr Nat :=
  match alookup consts tok with
  | some v => .ok v
  | none =>
    match parseUint10 tok with
    | some v => .ok v
    | none => .error (.fatal s!"failed to parse string length {tok}")

/-- The per-value validation and padding loop of the string case: a value
longer than the fixed length is fatal, a shorter one is zero-padded. -/
def padVals (name : String) (size : Nat) : List String → Except GenErr (List String)
  | [] => .ok []
  | s :: r =>
    if size < s.length then
      .error (.fatal s!"string value {s} exceeds buffer length {size} for arg {name}")
    else
      match padVals name size r with
      | .error e => .error e
      | .ok vs => .ok (padZeros s size :: vs)

/-- Classifier of the dispatch switch of `generateArg`: one tag per case of
the Go `switch typ`, `other` for the default case. -/
inductive TCon where
  | fileoff
  | buffer
  | strT
  | salgType
  | salgName
  | vma
  | lenLike
  | flags
  | constT
  | proc
  | intLike
  | signalno
  | filename
  | array
  | ptr
  | other
deriving DecidableEq, Repr

def classify (typ : String) : TCon :=
  match typ with
  | "fileoff" => .fileoff
  | "buffer" => .buffer
  | "string" => .strT
  | "salg_type" => .salgType
  | "salg_name" => .salgName
  | "vma" => .vma
  | "len" | "bytesize" | "bytesize2" | "bytesize4" | "bytesize8" => .lenLike
  | "flags" => .flags
  | "const" => .constT
  | "proc" => .proc
  | "int8" | "int16" | "int32" | "int64" | "intptr"
  | "int16be" | "int32be" | "int64be" | "intptrbe" => .intLike
  | "signalno" => .signalno
  | "filename" => .filename
  | "array" => .array
  | "ptr" => .ptr
  | _ => .other
/-- The type of the recursive entry used inside dispatch branches: all
recursive calls of the source (`generateType` for array elements and
pointer pointees, the unnamed-type expansion) pass empty parent and name
and `isArg = false`, so only (type token, direction, parameters, isField,
skip flag) vary. -/
abbrev GenRec := String → String → List String → Bool → String →
  Except GenErr (IRType × String × Bool × Bool)

/-- The `fileoff` case of `generateArg`. -/
def genFileoff (name typ dirStr : String) (a : List String) (opt isField : Bool)
    (skip : String) : Except GenErr (IRType × String × Bool × Bool) :=
  match (if isField then
      match a with
      | [t] => decodeIntType t
      | _ => .error (.fatal (arityMsg typ name 1 a.length))
    else
      match a with
      | [] => .ok (ptrSize, false)
      | _ => .error (.fatal (arityMsg typ name 0 a.length)) :
    Except GenErr (Nat × Bool)) with
  | .error e => .error e
  | .ok (size, bigEndian) =>
    match mkCommon name dirStr opt with
    | .error e => .error e
    | .ok c => .ok (.intT c size bigEndian .intFileoff, skip, true, false)

/-- The `buffer` case of `generateArg`: the outer pointer header is built
from the direction and optionality in force when the case is entered; only
then are `dir` and `opt` reassigned (to the direction parameter and to
false) for the inner buffer header. -/
def genBuffer (name typ dirStr : String) (a : List String) (opt : Bool)
    (skip : String) : Except GenErr (IRType × String × Bool × Bool) :=
  match a with
  | [bufDir] =>
    match mkCommon name dirStr opt with
    | .error e => .error e
    | .ok ptrCommonHdr =>
      match mkCommon name bufDir false with
      | .error e => .error e
      | .ok innerCommon =>
        .ok (.ptrT ptrCommonHdr (.bufferBlobRand innerCommon), skip, true, false)
  | _ => .error (.fatal (arityMsg typ name 1 a.length))

/-- The per-value null-terminator append of the string case. -/
def nullTerminate (vals : List String) : List String :=
  vals.map (fun s => s ++ nulStr)

/-- The `string` case of `generateArg`: enumerate the values, append the
null terminator to each, and when a fixed length is given validate and
zero-pad each value to it. -/
def genString (desc : Description) (consts : Consts) (name typ dirStr : String)
    (a : List String) (opt : Bool) (skip : String) :
    Except GenErr (IRType × String × Bool × Bool) :=
  if 2 < a.length then .error (.fatal (arityMsg typ name 2 a.length))
  else
    match stringVals desc a with
    | .error e => .error e
    | .ok (vals0, subkind) =>
      match (match a with
        | _ :: a1 :: _ =>
          match resolveStringLen consts a1 with
          | .error e => .error e
          | .ok size => padVals name size (nullTerminate vals0)
        | _ => .ok (nullTerminate vals0) : Except GenErr (List String)) with
      | .error e => .error e
      | .ok vals =>
        match mkCommon name dirStr opt with
        | .error e => .error e
        | .ok c => .ok (.bufferString c subkind vals, skip, false, false)

/-- The `salg_type` case of `generateArg`. -/
def genSalgType (name typ dirStr : String) (a : List String) (opt : Bool)
    (skip : String) : Except GenErr (IRType × String × Bool × Bool) :=
  match a with
  | [] =>
    match mkCommon name dirStr opt with
    | .error e => .error e
    | .ok c => .ok (.bufferAlgType c, skip, false, false)
  | _ => .error (.fatal (arityMsg typ name 0 a.length))

/-- The `salg_name` case of `generateArg`. -/
def genSalgName (name typ dirStr : String) (a : List String) (opt : Bool)
    (skip : String) : Except GenErr (IRType × String × Bool × Bool) :=
  match a with
  | [] =>
    match mkCommon name dirStr opt with
    | .error e => .error e
    | .ok c => .ok (.bufferAlgName c, skip, false, false)
  | _ => .error (.fatal (arityMsg typ name 0 a.length))

/-- The `vma` case of `generateArg`. -/
def genVma (consts : Consts) (name typ dirStr : String) (a : List String)
    (opt : Bool) (skip : String) : Except GenErr (IRType × String × Bool × Bool) :=
  match (match a with
    | [] => .ok ("0", "0")
    | [r] => parseRange r consts
    | _ => .error (.fatal (arityMsg typ name 1 a.length)) :
    Except GenErr (String × String)) with
  | .error e => .error e
  | .ok (rb, re) =>
    match mkCommon name dirStr opt with
    | .error e => .error e
    | .ok c => .ok (.vmaT c rb re, skip, true, false)

/-- The `len`/`bytesize*` case of `generateArg`. -/
def genLen (name typ dirStr : String) (a : List String) (opt isField : Bool)
    (skip : String) : Except GenErr (IRType × String × Bool × Bool) :=
  match (if isField then
      match a with
      | [buf, it] =>
        match decodeIntType it with
        | .error e => .error e
        | .ok (size, bigEndian) => .ok (buf, size, bigEndian)
      | _ => .error (.fatal (arityMsg typ name 2 a.length))
    else
      match a with
      | [buf] => .ok (buf, ptrSize, false)
      | _ => .error (.fatal (arityMsg typ name 1 a.length)) :
    Except GenErr (String × Nat × Bool)) with
  | .error e => .error e
  | .ok (buf, size, bigEndian) =>
    match (if typ = "len" then .ok 0 else decodeByteSizeType typ :
      Except GenErr Nat) with
    | .error e => .error e
    | .ok byteSize =>
      match mkCommon name dirStr opt with
      | .error e => .error e
      | .ok c => .ok (.lenT c buf size bigEndian byteSize, skip, true, false)

/-- The `flags` case of `generateArg`: a flag set that resolved to no
values degrades to a plain integer. -/
def genFlags (desc : Description) (name typ dirStr : String) (a : List String)
    (opt isField : Bool) (skip : String) : Except GenErr (IRType × String × Bool × Bool) :=
  match (if isField then
      match a with
      | [fl, it] =>
        match decodeIntType it with
        | .error e => .error e
        | .ok (size, bigEndian) => .ok (fl, size, bigEndian)
      | _ => .error (.fatal (arityMsg typ name 2 a.length))
    else
      match a with
      | [fl] => .ok (fl, ptrSize, false)
      | _ => .error (.fatal (arityMsg typ name 1 a.length)) :
    Except GenErr (String × Nat × Bool)) with
  | .error e => .error e
  | .ok (fl, size, bigEndian) =>
    match alookup desc.flags fl with
    | none => .error (.fatal s!"unknown flag {fl}")
    | some vals =>
      match mkCommon name dirStr opt with
      | .error e => .error e
      | .ok c =>
        if vals = [] then .ok (.intT c size bigEndian .intPlain, skip, true, false)
        else .ok (.flagsT c size bigEndian vals, skip, true, false)

/-- The `const` case of `generateArg`: a value token that is in the
constant table resolves; an identifier-shaped token absent from the table
emits the value 0 and calls `skipSyscall`; any other token passes through
verbatim. -/
def genConst (consts : Consts) (name typ dirStr : String) (a : List String)
    (opt isField : Bool) (skip : String) : Except GenErr (IRType × String × Bool × Bool) :=
  match (if isField then
      match a with
      | [v, it] =>
        match decodeIntType it with
        | .error e => .error e
        | .ok (size, bigEndian) => .ok (v, size, bigEndian)
      | _ => .error (.fatal (arityMsg typ name 2 a.length))
    else
      match a with
      | [v] => .ok (v, ptrSize, false)
      | _ => .error (.fatal (arityMsg typ name 1 a.length)) :
    Except GenErr (String × Nat × Bool)) with
  | .error e => .error e
  | .ok (v, size, bigEndian) =>
    match alookup consts v with
    | some cv =>
      match mkCommon name dirStr opt with
      | .error e => .error e
      | .ok c => .ok (.constT c size bigEndian (toString cv), skip, true, false)
    | none =>
      if isIdentifier v then
        match mkCommon name dirStr opt with
        | .error e => .error e
        | .ok c =>
          .ok (.constT c size bigEndian "0", skipSyscall s!"missing const {v}" skip, true, false)
      else
        match mkCommon name dirStr opt with
        | .error e => .error e
        | .ok c => .ok (.constT c size bigEndian v, skip, true, false)

/-- The `proc` case of `generateArg`, with the overflow checks carried out
in Go `int64` arithmetic exactly as the source computes them (including the
shift past the word width for an 8-byte size). -/
def genProc (name typ dirStr : String) (a : List String) (opt isField : Bool)
    (skip : String) : Except GenErr (IRType × String × Bool × Bool) :=
  match (if isField then
      match a with
      | [it, vs, vp] =>
        match decodeIntType it with
        | .error e => .error e
        | .ok (size, bigEndian) => .ok (size, bigEndian, vs, vp)
      | _ => .error (.fatal (arityMsg typ name 3 a.length))
    else
      match a with
      | [vs, vp] => .ok (ptrSize, false, vs, vp)
      | _ => .error (.fatal (arityMsg typ name 2 a.length)) :
    Except GenErr (Nat × Bool × String × String)) with
  | .error e => .error e
  | .ok (size, bigEndian, valuesStart, valuesPerProc) =>
    match parseInt10 valuesStart with
    | none => .error (.fatal s!"could not parse {valuesStart} as int64")
    | some valuesStartInt =>
      match parseInt10 valuesPerProc with
      | none => .error (.fatal s!"could not parse {valuesPerProc} as int64")
      | some valuesPerProcInt =>
        if valuesPerProcInt < 1 then
          .error (.fatal s!"values per proc should be at least 1")
        else if goShl1int64 (size * 8) ≤ valuesStartInt then
          .error (.fatal s!"values starting from {valuesStart} overflow desired type of size {size}")
        else if goShl1int64 (size * 8) ≤ int64wrap (valuesStartInt + 32 * valuesPerProcInt) then
          .error (.fatal s!"not enough values starting from {valuesStart} with step {valuesPerProc} and type size {size} for 32 procs")
        else
          match mkCommon name dirStr opt with
          | .error e => .error e
          | .ok c =>
            .ok (.procT c size bigEndian valuesStartInt valuesPerProcInt, skip, true, false)

/-- The plain/range integer case of `generateArg` (`int8` … `intptrbe`). -/
def genInt (consts : Consts) (name typ dirStr : String) (a : List String)
    (opt : Bool) (skip : String) : Except GenErr (IRType × String × Bool × Bool) :=
  match decodeIntType typ with
  | .error e => .error e
  | .ok (size, bigEndian) =>
    match a with
    | [] =>
      match mkCommon name dirStr opt with
      | .error e => .error e
      | .ok c => .ok (.intT c size bigEndian .intPlain, skip, true, false)
    | [r] =>
      match parseRange r consts with
      | .error e => .error e
      | .ok (rb, re) =>
        match mkCommon name dirStr opt with
        | .error e => .error e
        | .ok c => .ok (.intT c size bigEndian (.intRange rb re), skip, true, false)
    | _ => .error (.fatal (arityMsg typ name 1 a.length))

/-- The `signalno` case of `generateArg`. -/
def genSignalno (name typ dirStr : String) (a : List String) (opt : Bool)
    (skip : String) : Except GenErr (IRType × String × Bool × Bool) :=
  match a with
  | [] =>
    match mkCommon name dirStr opt with
    | .error e => .error e
    | .ok c => .ok (.intT c 4 false .intSignalno, skip, true, false)
  | _ => .error (.fatal (arityMsg typ name 0 a.length))

/-- The `filename` case of `generateArg`: like `buffer`, the outer pointer
header is snapshotted before `dir` is reassigned to `in` and `opt` to
false for the inner buffer header. -/
def genFilename (name typ dirStr : String) (a : List String) (opt : Bool)
    (skip : String) : Except GenErr (IRType × String × Bool × Bool) :=
  match a with
  | [] =>
    match mkCommon name dirStr opt with
    | .error e => .error e
    | .ok ptrCommonHdr =>
      match mkCommon name "in" false with
      | .error e => .error e
      | .ok innerCommon =>
        .ok (.ptrT ptrCommonHdr (.bufferFilename innerCommon), skip, true, false)
  | _ => .error (.fatal (arityMsg typ name 0 a.length))

/-- The `array` case of `generateArg`: a 1-byte element type collapses to a
blob; otherwise the element type is compiled through the recursive entry
(`generateType`).  The branch does not set `canBeArg`. -/
def genArray (recur : GenRec) (consts : Consts) (name typ dirStr : String)
    (a : List String) (opt : Bool) (skip : String) :
    Except GenErr (IRType × String × Bool × Bool) :=
  match a with
  | [et] =>
    match mkCommon name dirStr opt with
    | .error e => .error e
    | .ok c =>
      if et = "int8" then .ok (.bufferBlobRand c, skip, false, false)
      else
        match recur et dirStr [] true skip with
        | .error e => .error e
        | .ok (elemT, sk, _, _) => .ok (.arrayRandLen c elemT, sk, false, false)
  | [et, r] =>
    match parseRange r consts with
    | .error e => .error e
    | .ok (rb, re) =>
      match mkCommon name dirStr opt with
      | .error e => .error e
      | .ok c =>
        if et = "int8" then .ok (.bufferBlobRange c rb re, skip, false, false)
        else
          match recur et dirStr [] true skip with
          | .error e => .error e
          | .ok (elemT, sk, _, _) => .ok (.arrayRangeLen c elemT rb re, sk, false, false)
  | _ => .error (.fatal (arityMsg typ name 2 a.length))

/-- The `ptr` case of `generateArg`: its own direction is forced to `in`
before the header is built; the pointee is compiled through the recursive
entry with the declared pointee direction. -/
def genPtr (recur : GenRec) (name typ dirStr : String) (a : List String)
    (opt : Bool) (skip : String) : Except GenErr (IRType × String × Bool × Bool) :=
  match a with
  | [pdir, ptyp] =>
    match mkCommon name "in" opt with
    | .error e => .error e
    | .ok c =>
      match recur ptyp pdir [] true skip with
      | .error e => .error e
      | .ok (innerT, sk, _, _) => .ok (.ptrT c innerT, sk, true, false)
  | _ => .error (.fatal (arityMsg typ name 2 a.length))

/-- Character-list prefix test (Go `strings.HasPrefix`), structurally
recursive so that terms over symbolic strings stay small. -/
def listPre : List Char → List Char → Bool
  | [], _ => true
  | _ :: _, [] => false
  | c :: p, d :: s => c = d && listPre p s

def beginsWith (s pre : String) : Bool := listPre pre.toList s.toList

/-- The default case of `generateArg`: unnamed-type expansion, struct/union
reference (no header of its own, keyed by type name, calling field name and
direction), resource reference (which returns early, bypassing the final
eligibility check), or a fatal unknown-type error. -/
def genDefault (recur : GenRec) (desc : Description) (name typ dirStr : String)
    (a : List String) (opt isField : Bool) (skip : String) :
    Except GenErr (IRType × String × Bool × Bool) :=
  if beginsWith typ "unnamed" then
    match alookup desc.unnamed typ with
    | some (t :: rest) =>
      match recur t dirStr rest isField skip with
      | .error e => .error e
      | .ok (t', sk, _, _) => .ok (t', sk, false, false)
    | some [] => .error (.fatal s!"empty unnamed type {typ}")
    | none => .error (.fatal s!"unknown unnamed type {typ}")
  else
    match alookup desc.structs typ with
    | some _ =>
      if a = [] then .ok (.structRef ⟨typ, name, dirStr⟩, skip, false, false)
      else .error (.fatal s!"struct {typ} has args")
    | none =>
      match alookup desc.resources typ with
      | some _ =>
        if a = [] then
          match mkCommon name dirStr opt with
          | .error e => .error e
          | .ok c => .ok (.resourceRef c typ, skip, false, true)
        else .error (.fatal s!"resource {typ} has args")
      | none => .error (.fatal s!"unknown arg type {typ} for {name}")

/-- The body of Go `generateArg` up to (but not including) the final
`isArg && !canBeArg` check: strip the `opt` marker, then dispatch on the
type token to the case definitions above.  Returns the compiled node, the
updated skip flag, the `canBeArg` flag set by the taken branch, and whether
the branch returned early, bypassing the final check (only the resource
branch does).  All recursive calls pass `isArg = false`, for which the
final check is vacuous, so the recursion goes directly through this core,
with fuel decreasing at every recursive call. -/
def generateArgCore : Nat → String → String → String → String → List String →
    Description → Consts → Bool → String → Except GenErr (IRType × String × Bool × Bool)
  | 0, _, _, _, _, _, _, _, _, _ => .error .outOfFuel
  | Nat.succ fuel, _parent, name, typ, dirStr, a0, desc, consts, isField, skip =>
    let p := stripOpt a0
    let a := p.1
    let opt := p.2
    let rec_ : GenRec := fun ty d aa f sk => generateArgCore fuel "" "" ty d aa desc consts f sk
    match classify typ with
    | .fileoff => genFileoff name typ dirStr a opt isField skip
    | .buffer => genBuffer name typ dirStr a opt skip
    | .strT => genString desc consts name typ dirStr a opt skip
    | .salgType => genSalgType name typ dirStr a opt skip
    | .salgName => genSalgName name typ dirStr a opt skip
    | .vma => genVma consts name typ dirStr a opt skip
    | .lenLike => genLen name typ dirStr a opt isField skip
    | .flags => genFlags desc name typ dirStr a opt isField skip
    | .constT => genConst consts name typ dirStr a opt isField skip
    | .proc => genProc name typ dirStr a opt isField skip
    | .intLike => genInt consts name typ dirStr a opt skip
    | .signalno => genSignalno name typ dirStr a opt skip
    | .filename => genFilename name typ dirStr a opt skip
    | .array => genArray rec_ consts name typ dirStr a opt skip
    | .ptr => genPtr rec_ name typ dirStr a opt skip
    | .other => genDefault rec_ desc name typ dirStr a opt isField skip
/-- Go `generateArg`: the core dispatch followed by the final eligibility
check, which fires only for a top-level argument or return compiled by a
branch that neither set `canBeArg` nor returned early. -/
def generateArg (fuel : Nat) (parent name typ dirStr : String) (a : List String)
    (desc : Description) (consts : Consts) (isArg isField : Bool) (skip : String) :
    Except GenErr (IRType × String) :=
  match generateArgCore fuel parent name typ dirStr a desc consts isField skip with
  | .error e => .error e
  | .ok (t, sk, canBeArg, bypass) =>
    if !bypass && isArg && !canBeArg then .error (.fatal (canBeArgMsg name typ))
    else .ok (t, sk)

/-- Go `generateType`: compile a bare type token with no parameters, as a
non-argument field (used for array elements and pointer pointees). -/
def generateType (fuel : Nat) (typ dirStr : String) (desc : Description)
    (consts : Consts) (skip : String) : Except GenErr (IRType × String) :=
  generateArg fuel "" "" typ dirStr [] desc consts false true skip

/-- A compiled call descriptor (the `Call` literal emitted by `generate`):
`nr` is the syscall number, `-1` the unavailable sentinel. -/
structure CallDescriptor where
  name : String
  callName : String
  nr : Int
  ret : Option IRType
  args : List IRType
deriving DecidableEq, Repr

/-- The number a call resolves to before the skip-flag check: the constant
table entry for `__NR_` + CallName (converted to Go `int`, i.e. a signed
64-bit word), or the sentinel -1 when absent. -/
def baseNR (consts : Consts) (callName : String) : Int :=
  match alookup consts ("__NR_" ++ callName) with
  | some v => int64wrap v
  | none => -1

/-- Compilation of the return type of a call (`generate`, the `Ret:` part):
direction `out`, top-level position. -/
def compileRet (fuel : Nat) (desc : Description) (consts : Consts)
    (ret : List String) (skip : String) : Except GenErr (Option IRType × String) :=
  match ret with
  | [] => .ok (none, skip)
  | t :: rest =>
    match generateArg fuel "" "ret" t "out" rest desc consts true false skip with
    | .error e => .error e
    | .ok (x, sk) => .ok (some x, sk)

/-- Compilation of the argument list of a call (`generate`, the `Args:`
part): each argument in declaration order, direction `in`, top-level
position, threading the skip flag left to right. -/
def compileArgs (fuel : Nat) (desc : Description) (consts : Consts) :
    List (String × String × List String) → String → Except GenErr (List IRType × String)
  | [], skip => .ok ([], skip)
  | (an, at_, ap) :: rest, skip =>
    match generateArg fuel "" an at_ "in" ap desc consts true false skip with
    | .error e => .error e
    | .ok (t, sk) =>
      match compileArgs fuel desc consts rest sk with
      | .error e => .error e
      | .ok (ts, sk') => .ok (t :: ts, sk')

/-- One iteration of the per-call loop of Go `generate`: reset the skip
flag, resolve the number, compile return type then arguments, and demote
the number to the unavailable sentinel when the skip flag ends non-empty. -/
def compileCall (fuel : Nat) (desc : Description) (consts : Consts)
    (s : Syscall) : Except GenErr CallDescriptor :=
  match compileRet fuel desc consts s.ret "" with
  | .error e => .error e
  | .ok (retT, sk1) =>
    match compileArgs fuel desc consts s.args sk1 with
    | .error e => .error e
    | .ok (argsT, sk2) =>
      .ok ⟨s.name, s.callName,
        (if sk2 ≠ "" then -1 else baseNR consts s.callName), retT, argsT⟩

/-- The per-resource value resolution of `generateResources`: constants
resolve to their printed value, non-identifier literals pass through,
unresolved identifiers are dropped. -/
def resolveValues (consts : Consts) (values : List String) : List String :=
  values.filterMap (fun v =>
    match alookup consts v with
    | some v1 => some (toString v1)
    | none => if isIdentifier v then none else some v)

/-- The primitive integer kinds terminating a resource base chain (the
`case` list of the `switch res.Base` in `generateResources`). -/
def primBase (b : String) : Bool :=
  b = "int8" || b = "int16" || b = "int32" || b = "int64" || b = "intptr"

/-- The base-chain walk of `generateResources` (the `loop:` for-loop),
with the loop state (current resource, kind chain, accumulated values)
explicit and fuel making its potential nontermination observable: the Go
loop has no cycle guard, so a cyclic base chain never reaches either exit. -/
def resolveLoop : Nat → List (String × Resource) → Consts → Resource →
    String → List String → List String → Except GenErr (String × List String × List String)
  | 0, _, _, _, _, _, _ => .error .outOfFuel
  | Nat.succ fuel, rs, consts, res, nm, kind, values =>
    let values1 := resolveValues consts res.values
    let values' := values1 ++ values
    if primBase res.base then .ok (res.base, kind, values')
    else
      match alookup rs res.base with
      | none => .error (.fatal s!"resource {nm} has unknown parent resource")
      | some p => resolveLoop fuel rs consts p nm (res.base :: kind) values'

/-- A resolved resource descriptor (`ResourceDesc` literal emitted by
`generateResources`). -/
structure ResourceDesc where
  name : String
  typ : IRType
  kind : List String
  values : List String
deriving DecidableEq, Repr

/-- One iteration of the per-resource loop of `generateResources`: walk the
base chain, compile the underlying primitive type, and default an empty
value set to the single value 0. -/
def generateResource (fuel : Nat) (desc : Description) (consts : Consts)
    (res : Resource) : Except GenErr ResourceDesc :=
  match resolveLoop fuel desc.resources consts res res.name [res.name] [] with
  | .error e => .error e
  | .ok (underlying, kind, values) =>
    match generateArg fuel "" "resource-type" underlying "inout" [] desc consts true true "" with
    | .error e => .error e
    | .ok (typ, _) =>
      .ok ⟨res.name, typ, kind, (if values = [] then ["0"] else values)⟩

/-- Insertion into the struct instance map with Go map semantics: the key
occurs once, the last assignment wins. -/
def insertKV (m : List (StructKey × Struct)) (k : StructKey) (v : Struct) :
    List (StructKey × Struct) :=
  (k, v) :: m.filter (fun q => decide (q.1 ≠ k))

/-- The three directions every instance is registered under. -/
def dirs3 : List String := ["in", "out", "inout"]

/-- Registration of one (name, field) instance under every direction in
`ds` (the inner `for _, dir := range [...]` loops of `generateStructs`). -/
def insDirs (nm fl : String) (v : Struct) : List String →
    List (StructKey × Struct) → List (StructKey × Struct)
  | [], m => m
  | d :: ds, m => insDirs nm fl v ds (insertKV m ⟨nm, fl, d⟩ v)

/-- Registration of the per-field instances of one struct definition: for
each field whose declared type names a known struct, that inner struct is
registered under (inner name, field name, direction). -/
def insFlds (desc : Description) : List (String × String × List String) →
    List (StructKey × Struct) → List (StructKey × Struct)
  | [], m => m
  | fld :: rest, m =>
    insFlds desc rest
      (match alookup desc.structs fld.2.1 with
       | some innerStr => insDirs fld.2.1 fld.1 innerStr dirs3 m
       | none => m)

/-- Pass 1 registrations contributed by one struct definition
(`generateStructs`, first loop body): the top-level key of the struct under
each direction, plus the per-field instances. -/
def registerStruct (desc : Description) (m : List (StructKey × Struct))
    (q : String × Struct) : List (StructKey × Struct) :=
  insFlds desc q.2.flds (insDirs q.2.name "" q.2 dirs3 m)

def regAll (desc : Description) : List (String × Struct) →
    List (StructKey × Struct) → List (StructKey × Struct)
  | [], m => m
  | q :: rest, m => regAll desc rest (registerStruct desc m q)

/-- Pass 1 of `generateStructs`: the full instance map. -/
def buildStructMap (desc : Description) : List (StructKey × Struct) :=
  regAll desc desc.structs []

/-- A struct/union instance after both passes (`generateStructEntry` header
plus the field list filled by `generateStructFields`). -/
structure CompiledStruct where
  isUnion : Bool
  name : String
  dir : String
  packed : Bool
  varlen : Bool
  align : Nat
  fields : List IRType
deriving DecidableEq, Repr

/-- Pass 2 field compilation for one instance (`generateStructFields`): each
declared field in order, with the owning struct as parent, the instance
direction, and `isField = true`; the skip flag threads left to right. -/
def compileFields (fuel : Nat) (desc : Description) (consts : Consts)
    (strName dirStr : String) :
    List (String × String × List String) → String → Except GenErr (List IRType × String)
  | [], skip => .ok ([], skip)
  | (fn, ft, fp) :: rest, skip =>
    match generateArg fuel strName fn ft dirStr fp desc consts false true skip with
    | .error e => .error e
    | .ok (t, sk) =>
      match compileFields fuel desc consts strName dirStr rest sk with
      | .error e => .error e
      | .ok (ts, sk') => .ok (t :: ts, sk')

/-- Both passes for one registered instance: the entry header of
`generateStructEntry` (display name is the field name, or the struct name
for a top-level key; optionality always false) plus the compiled fields. -/
def compileStruct (fuel : Nat) (desc : Description) (consts : Consts)
    (key : StructKey) (str : Struct) : Except GenErr CompiledStruct :=
  match fmtDir key.dir with
  | .error e => .error e
  | .ok _ =>
    match compileFields fuel desc consts str.name key.dir str.flds "" with
    | .error e => .error e
    | .ok q =>
      .ok ⟨str.isUnion, (if key.field = "" then key.name else key.field), key.dir,
        str.packed, str.varlen, str.align, q.1⟩

/-- Pass 2 over the whole instance map (`initStructFields`). -/
def fillStructFields (fuel : Nat) (desc : Description) (consts : Consts) :
    List (StructKey × Struct) → Except GenErr (List (StructKey × CompiledStruct))
  | [] => .ok []
  | (k, s) :: rest =>
    match compileStruct fuel desc consts k s with
    | .error e => .error e
    | .ok c =>
      match fillStructFields fuel desc consts rest with
      | .error e => .error e
      | .ok m => .ok ((k, c) :: m)

/-- Association-list lookup specialised to the compiled struct map. -/
def clookup : List (StructKey × CompiledStruct) → StructKey → Option CompiledStruct
  | [], _ => none
  | (k, v) :: r, k' => if k = k' then some v else clookup r k'

/-- Length (in characters, modelling Go byte length on ASCII data) of the
longest enumerated string value. -/
def maxLenVals (l : List String) : Nat :=
  l.foldr (fun s m => max s.length m) 0

/-- An empty description, for concrete instantiations. -/
def emptyDesc : Description := ⟨[], [], [], [], [], []⟩

/-- A skip flag returned unchanged, or passed through `skipSyscall`, or
coming from a recursive call that preserves emptiness, is empty when the
input flag was: the generic shape of the per-branch skip lemmas. -/
theorem skipSyscall_empty (why : String) : skipSyscall why "" = "" := by
  simp [skipSyscall]

/-- Predicate: a recursive entry preserves emptiness of the skip flag. -/
def RecSkipEmpty (recur : GenRec) : Prop :=
  ∀ ty d aa f t sk cba bp, recur ty d aa f "" = .ok (t, sk, cba, bp) → sk = ""

theorem genFileoff_skip_empty (name typ dirStr : String) (a : List String)
    (opt isField : Bool) (t : IRType) (sk : String) (cba bp : Bool)
    (h : genFileoff name typ dirStr a opt isField "" = .ok (t, sk, cba, bp)) :
    sk = "" := by
  unfold genFileoff at h
  iterate 8 (all_goals (try split at h))
  all_goals (try (exact Except.noConfusion h))
  all_goals (injection h with hp; simp only [Prod.mk.injEq] at hp; exact hp.2.1.symm)

theorem genBuffer_skip_empty (name typ dirStr : String) (a : List String)
    (opt : Bool) (t : IRType) (sk : String) (cba bp : Bool)
    (h : genBuffer name typ dirStr a opt "" = .ok (t, sk, cba, bp)) :
    sk = "" := by
  unfold genBuffer at h
  iterate 8 (all_goals (try split at h))
  all_goals (try (exact Except.noConfusion h))
  all_goals (injection h with hp; simp only [Prod.mk.injEq] at hp; exact hp.2.1.symm)

theorem genString_skip_empty (desc : Description) (consts : Consts)
    (name typ dirStr : String) (a : List String) (opt : Bool)
    (t : IRType) (sk : String) (cba bp : Bool)
    (h : genString desc consts name typ dirStr a opt "" = .ok (t, sk, cba, bp)) :
    sk = "" := by
  unfold genString at h
  iterate 8 (all_goals (try split at h))
  all_goals (try (exact Except.noConfusion h))
  all_goals (injection h with hp; simp only [Prod.mk.injEq] at hp; exact hp.2.1.symm)

theorem genSalgType_skip_empty (name typ dirStr : String) (a : List String)
    (opt : Bool) (t : IRType) (sk : String) (cba bp : Bool)
    (h : genSalgType name typ dirStr a opt "" = .ok (t, sk, cba, bp)) :
    sk = "" := by
  unfold genSalgType at h
  iterate 8 (all_goals (try split at h))
  all_goals (try (exact Except.noConfusion h))
  all_goals (injection h with hp; simp only [Prod.mk.injEq] at hp; exact hp.2.1.symm)

theorem genSalgName_skip_empty (name typ dirStr : String) (a : List String)
    (opt : Bool) (t : IRType) (sk : String) (cba bp : Bool)
    (h : genSalgName name typ dirStr a opt "" = .ok (t, sk, cba, bp)) :
    sk = "" := by
  unfold genSalgName at h
  iterate 8 (all_goals (try split at h))
  all_goals (try (exact Except.noConfusion h))
  all_goals (injection h with hp; simp only [Prod.mk.injEq] at hp; exact hp.2.1.symm)

theorem genVma_skip_empty (consts : Consts) (name typ dirStr : String)
    (a : List String) (opt : Bool) (t : IRType) (sk : String) (cba bp : Bool)
    (h : genVma consts name typ dirStr a opt "" = .ok (t, sk, cba, bp)) :
    sk = "" := by
  unfold genVma at h
  iterate 8 (all_goals (try split at h))
  all_goals (try (exact Except.noConfusion h))
  all_goals (injection h with hp; simp only [Prod.mk.injEq] at hp; exact hp.2.1.symm)

theorem genLen_skip_empty (name typ dirStr : String) (a : List String)
    (opt isField : Bool) (t : IRType) (sk : String) (cba bp : Bool)
    (h : genLen name typ dirStr a opt isField "" = .ok (t, sk, cba, bp)) :
    sk = "" := by
  unfold genLen at h
  iterate 8 (all_goals (try split at h))
  all_goals (try (exact Except.noConfusion h))
  all_goals (injection h with hp; simp only [Prod.mk.injEq] at hp; exact hp.2.1.symm)

theorem genFlags_skip_empty (desc : Description) (name typ dirStr : String)
    (a : List String) (opt isField : Bool) (t : IRType) (sk : String) (cba bp : Bool)
    (h : genFlags desc name typ dirStr a opt isField "" = .ok (t, sk, cba, bp)) :
    sk = "" := by
  unfold genFlags at h
  iterate 8 (all_goals (try split at h))
  all_goals (try (exact Except.noConfusion h))
  all_goals (injection h with hp; simp only [Prod.mk.injEq] at hp; exact hp.2.1.symm)

theorem genConst_skip_empty (consts : Consts) (name typ dirStr : String)
    (a : List String) (opt isField : Bool) (t : IRType) (sk : String) (cba bp : Bool)
    (h : genConst consts name typ dirStr a opt isField "" = .ok (t, sk, cba, bp)) :
    sk = "" := by
  unfold genConst at h
  iterate 8 (all_goals (try split at h))
  all_goals (try (exact Except.noConfusion h))
  all_goals (injection h with hp; simp only [Prod.mk.injEq] at hp; rw [← hp.2.1])
  all_goals (exact skipSyscall_empty _)

theorem genProc_skip_empty (name typ dirStr : String) (a : List String)
    (opt isField : Bool) (t : IRType) (sk : String) (cba bp : Bool)
    (h : genProc name typ dirStr a opt isField "" = .ok (t, sk, cba, bp)) :
    sk = "" := by
  unfold genProc at h
  iterate 8 (all_goals (try split at h))
  all_goals (try (exact Except.noConfusion h))
  all_goals (injection h with hp; simp only [Prod.mk.injEq] at hp; exact hp.2.1.symm)

theorem genInt_skip_empty (consts : Consts) (name typ dirStr : String)
    (a : List String) (opt : Bool) (t : IRType) (sk : String) (cba bp : Bool)
    (h : genInt consts name typ dirStr a opt "" = .ok (t, sk, cba, bp)) :
    sk = "" := by
  unfold genInt at h
  iterate 8 (all_goals (try split at h))
  all_goals (try (exact Except.noConfusion h))
  all_goals (injection h with hp; simp only [Prod.mk.injEq] at hp; exact hp.2.1.symm)

theorem genSignalno_skip_empty (name typ dirStr : String) (a : List String)
    (opt : Bool) (t : IRType) (sk : String) (cba bp : Bool)
    (h : genSignalno name typ dirStr a opt "" = .ok (t, sk, cba, bp)) :
    sk = "" := by
  unfold genSignalno at h
  iterate 8 (all_goals (try split at h))
  all_goals (try (exact Except.noConfusion h))
  all_goals (injection h with hp; simp only [Prod.mk.injEq] at hp; exact hp.2.1.symm)

theorem genFilename_skip_empty (name typ dirStr : String) (a : List String)
    (opt : Bool) (t : IRType) (sk : String) (cba bp : Bool)
    (h : genFilename name typ dirStr a opt "" = .ok (t, sk, cba, bp)) :
    sk = "" := by
  unfold genFilename at h
  iterate 8 (all_goals (try split at h))
  all_goals (try (exact Except.noConfusion h))
  all_goals (injection h with hp; simp only [Prod.mk.injEq] at hp; exact hp.2.1.symm)

theorem genArray_skip_empty (recur : GenRec) (hr : RecSkipEmpty recur)
    (consts : Consts) (name typ dirStr : String) (a : List String)
    (opt : Bool) (t : IRType) (sk : String) (cba bp : Bool)
    (h : genArray recur consts name typ dirStr a opt "" = .ok (t, sk, cba, bp)) :
    sk = "" := by
  unfold genArray at h
  iterate 8 (all_goals (try split at h))
  all_goals (try (exact Except.noConfusion h))
  all_goals (injection h with hp; simp only [Prod.mk.injEq] at hp; rw [← hp.2.1])
  all_goals (exact hr _ _ _ _ _ _ _ _ (by assumption))

theorem genPtr_skip_empty (recur : GenRec) (hr : RecSkipEmpty recur)
    (name typ dirStr : String) (a : List String)
    (opt : Bool) (t : IRType) (sk : String) (cba bp : Bool)
    (h : genPtr recur name typ dirStr a opt "" = .ok (t, sk, cba, bp)) :
    sk = "" := by
  unfold genPtr at h
  iterate 8 (all_goals (try split at h))
  all_goals (try (exact Except.noConfusion h))
  all_goals (injection h with hp; simp only [Prod.mk.injEq] at hp; rw [← hp.2.1])
  all_goals (exact hr _ _ _ _ _ _ _ _ (by assumption))

set_option maxHeartbeats 1600000 in
theorem genDefault_skip_empty (recur : GenRec) (hr : RecSkipEmpty recur)
    (desc : Description) (name typ dirStr : String) (a : List String)
    (opt isField : Bool) (t : IRType) (sk : String) (cba bp : Bool)
    (h : genDefault recur desc name typ dirStr a opt isField "" = .ok (t, sk, cba, bp)) :
    sk = "" := by
  unfold genDefault at h
  iterate 8 (all_goals (try split at h))
  all_goals (try (exact Except.noConfusion h))
  all_goals (injection h with hp; simp only [Prod.mk.injEq] at hp; rw [← hp.2.1])
  all_goals (exact hr _ _ _ _ _ _ _ _ (by assumption))

/-- The core dispatch never turns an empty skip flag into a non-empty one:
the only write goes through `skipSyscall`, which leaves an empty flag
empty. -/
theorem generateArgCore_skip_empty (fuel : Nat) :
    ∀ (parent name typ dirStr : String) (a : List String)
      (desc : Description) (consts : Consts) (isField : Bool)
      (t : IRType) (sk : String) (cba bp : Bool),
    generateArgCore fuel parent name typ dirStr a desc consts isField "" =
      .ok (t, sk, cba, bp) → sk = "" := by
  induction fuel with
  | zero =>
    intro parent name typ dirStr a desc consts isField t sk cba bp h
    exact absurd h (by simp [generateArgCore])
  | succ n ih =>
    intro parent name typ dirStr a desc consts isField t sk cba bp h
    have hr : RecSkipEmpty (fun ty d aa f sk =>
        generateArgCore n "" "" ty d aa desc consts f sk) := by
      intro ty d aa f t sk cba bp hh
      exact ih "" "" ty d aa desc consts f t sk cba bp hh
    simp only [generateArgCore] at h
    split at h
    case _ => exact genFileoff_skip_empty _ _ _ _ _ _ _ _ _ _ h
    case _ => exact genBuffer_skip_empty _ _ _ _ _ _ _ _ _ h
    case _ => exact genString_skip_empty _ _ _ _ _ _ _ _ _ _ _ h
    case _ => exact genSalgType_skip_empty _ _ _ _ _ _ _ _ _ h
    case _ => exact genSalgName_skip_empty _ _ _ _ _ _ _ _ _ h
    case _ => exact genVma_skip_empty _ _ _ _ _ _ _ _ _ _ h
    case _ => exact genLen_skip_empty _ _ _ _ _ _ _ _ _ _ h
    case _ => exact genFlags_skip_empty _ _ _ _ _ _ _ _ _ _ _ h
    case _ => exact genConst_skip_empty _ _ _ _ _ _ _ _ _ _ _ h
    case _ => exact genProc_skip_empty _ _ _ _ _ _ _ _ _ _ h
    case _ => exact genInt_skip_empty _ _ _ _ _ _ _ _ _ _ h
    case _ => exact genSignalno_skip_empty _ _ _ _ _ _ _ _ _ h
    case _ => exact genFilename_skip_empty _ _ _ _ _ _ _ _ _ h
    case _ => exact genArray_skip_empty _ hr _ _ _ _ _ _ _ _ _ _ h
    case _ => exact genPtr_skip_empty _ hr _ _ _ _ _ _ _ _ _ h
    case _ => exact genDefault_skip_empty _ hr _ _ _ _ _ _ _ _ _ _ _ h

/-- Wrapper-level corollary: `generateArg` with an empty incoming skip flag
returns an empty skip flag. -/
theorem generateArg_skip_empty (fuel : Nat) (parent name typ dirStr : String)
    (a : List String) (desc : Description) (consts : Consts) (isArg isField : Bool)
    (t : IRType) (sk : String)
    (h : generateArg fuel parent name typ dirStr a desc consts isArg isField "" =
      .ok (t, sk)) : sk = "" := by
  unfold generateArg at h
  split at h
  · exact Except.noConfusion h
  · split at h
    · exact Except.noConfusion h
    · injection h with hp
      simp only [Prod.mk.injEq] at hp
      rw [← hp.2]
      exact generateArgCore_skip_empty fuel _ _ _ _ _ _ _ _ _ _ _ _ (by assumption)

/-- Return-type compilation preserves an empty skip flag. -/
theorem compileRet_skip_empty (fuel : Nat) (desc : Description) (consts : Consts)
    (ret : List String) (r : Option IRType) (sk : String)
    (h : compileRet fuel desc consts ret "" = .ok (r, sk)) : sk = "" := by
  unfold compileRet at h
  split at h
  · injection h with hp
    simp only [Prod.mk.injEq] at hp
    exact hp.2.symm
  · split at h
    · exact Except.noConfusion h
    · injection h with hp
      simp only [Prod.mk.injEq] at hp
      rw [← hp.2]
      exact generateArg_skip_empty fuel _ _ _ _ _ _ _ _ _ _ _ (by assumption)

/-- Argument-list compilation preserves an empty skip flag. -/
theorem compileArgs_skip_empty (fuel : Nat) (desc : Description) (consts : Consts) :
    ∀ (args : List (String × String × List String)) (l : List IRType) (sk : String),
    compileArgs fuel desc consts args "" = .ok (l, sk) → sk = "" := by
  intro args
  induction args with
  | nil =>
    intro l sk h
    unfold compileArgs at h
    injection h with hp
    simp only [Prod.mk.injEq] at hp
    exact hp.2.symm
  | cons hd tl ih =>
    intro l sk h
    unfold compileArgs at h
    split at h
    · exact Except.noConfusion h
    · rename_i t1 sk1 heq1
      have hsk1 : sk1 = "" :=
        generateArg_skip_empty fuel _ _ _ _ _ _ _ _ _ _ _ heq1
      subst hsk1
      split at h
      · exact Except.noConfusion h
      · injection h with hp
        simp only [Prod.mk.injEq] at hp
        rw [← hp.2]
        exact ih _ _ (by assumption)

/-- Argument-list compilation yields one compiled node per declared
argument, in order. -/
theorem compileArgs_length (fuel : Nat) (desc : Description) (consts : Consts) :
    ∀ (args : List (String × String × List String)) (skip : String)
      (l : List IRType) (sk : String),
    compileArgs fuel desc consts args skip = .ok (l, sk) → l.length = args.length := by
  intro args
  induction args with
  | nil =>
    intro skip l sk h
    unfold compileArgs at h
    injection h with hp
    simp only [Prod.mk.injEq] at hp
    rw [← hp.1]
    rfl
  | cons hd tl ih =>
    intro skip l sk h
    unfold compileArgs at h
    split at h
    · exact Except.noConfusion h
    · split at h
      · exact Except.noConfusion h
      · injection h with hp
        simp only [Prod.mk.injEq] at hp
        rw [← hp.1]
        simp only [List.length_cons]
        rw [ih _ _ _ (by assumption)]

/-- Dispatch equation: a `const` token reaches `genConst` after `opt`
stripping. -/
theorem generateArgCore_const (fuel : Nat) (parent name dirStr : String)
    (a0 : List String) (desc : Description) (consts : Consts) (isField : Bool)
    (skip : String) :
    generateArgCore (fuel + 1) parent name "const" dirStr a0 desc consts isField skip =
      genConst consts name "const" dirStr (stripOpt a0).1 (stripOpt a0).2 isField skip := rfl

/-- Dispatch equation for `buffer`. -/
theorem generateArgCore_buffer (fuel : Nat) (parent name dirStr : String)
    (a0 : List String) (desc : Description) (consts : Consts) (isField : Bool)
    (skip : String) :
    generateArgCore (fuel + 1) parent name "buffer" dirStr a0 desc consts isField skip =
      genBuffer name "buffer" dirStr (stripOpt a0).1 (stripOpt a0).2 skip := rfl

/-- Dispatch equation for `filename`. -/
theorem generateArgCore_filename (fuel : Nat) (parent name dirStr : String)
    (a0 : List String) (desc : Description) (consts : Consts) (isField : Bool)
    (skip : String) :
    generateArgCore (fuel + 1) parent name "filename" dirStr a0 desc consts isField skip =
      genFilename name "filename" dirStr (stripOpt a0).1 (stripOpt a0).2 skip := rfl

/-- Dispatch equation for `string`. -/
theorem generateArgCore_string (fuel : Nat) (parent name dirStr : String)
    (a0 : List String) (desc : Description) (consts : Consts) (isField : Bool)
    (skip : String) :
    generateArgCore (fuel + 1) parent name "string" dirStr a0 desc consts isField skip =
      genString desc consts name "string" dirStr (stripOpt a0).1 (stripOpt a0).2 skip := rfl

/-- Dispatch equation for `proc`. -/
theorem generateArgCore_proc (fuel : Nat) (parent name dirStr : String)
    (a0 : List String) (desc : Description) (consts : Consts) (isField : Bool)
    (skip : String) :
    generateArgCore (fuel + 1) parent name "proc" dirStr a0 desc consts isField skip =
      genProc name "proc" dirStr (stripOpt a0).1 (stripOpt a0).2 isField skip := rfl

/-- Dispatch equation for `array`. -/
theorem generateArgCore_array (fuel : Nat) (parent name dirStr : String)
    (a0 : List String) (desc : Description) (consts : Consts) (isField : Bool)
    (skip : String) :
    generateArgCore (fuel + 1) parent name "array" dirStr a0 desc consts isField skip =
      genArray (fun ty d aa f sk => generateArgCore fuel "" "" ty d aa desc consts f sk)
        consts name "array" dirStr (stripOpt a0).1 (stripOpt a0).2 skip := rfl

/-- Dispatch equation for `ptr`. -/
theorem generateArgCore_ptr (fuel : Nat) (parent name dirStr : String)
    (a0 : List String) (desc : Description) (consts : Consts) (isField : Bool)
    (skip : String) :
    generateArgCore (fuel + 1) parent name "ptr" dirStr a0 desc consts isField skip =
      genPtr (fun ty d aa f sk => generateArgCore fuel "" "" ty d aa desc consts f sk)
        name "ptr" dirStr (stripOpt a0).1 (stripOpt a0).2 skip := rfl

/-- Dispatch equation for the default case, conditional on the classifier
landing there. -/
theorem generateArgCore_other (fuel : Nat) (parent name typ dirStr : String)
    (a0 : List String) (desc : Description) (consts : Consts) (isField : Bool)
    (skip : String) (h : classify typ = .other) :
    generateArgCore (fuel + 1) parent name typ dirStr a0 desc consts isField skip =
      genDefault (fun ty d aa f sk => generateArgCore fuel "" "" ty d aa desc consts f sk)
        desc name typ dirStr (stripOpt a0).1 (stripOpt a0).2 isField skip := by
  conv_lhs => rw [generateArgCore]
  rw [h]

/-- Dispatch equation for the plain-integer case, conditional on the
classifier. -/
theorem generateArgCore_int (fuel : Nat) (parent name typ dirStr : String)
    (a0 : List String) (desc : Description) (consts : Consts) (isField : Bool)
    (skip : String) (h : classify typ = .intLike) :
    generateArgCore (fuel + 1) parent name typ dirStr a0 desc consts isField skip =
      genInt consts name typ dirStr (stripOpt a0).1 (stripOpt a0).2 skip := by
  conv_lhs => rw [generateArgCore]
  rw [h]

/-- `opt` stripping on a one-token list without the marker. -/
theorem stripOpt_single (v : String) (hv : v ≠ "opt") : stripOpt [v] = ([v], false) := by
  simp [stripOpt, hv]

/-- `opt` stripping on a two-token list without the marker. -/
theorem stripOpt_pair (v w : String) (hv : v ≠ "opt") (hw : w ≠ "opt") :
    stripOpt [v, w] = ([v, w], false) := by
  simp [stripOpt, hv, hw]

/-- `common()` on a valid direction token. -/
theorem mkCommon_ok (name dirStr : String) (opt : Bool) (dd : Dir)
    (h : fmtDir dirStr = .ok dd) : mkCommon name dirStr opt = .ok ⟨name, dd, opt⟩ := by
  unfold mkCommon
  rw [h]

/-- C1: for a call compiled for an architecture, a `const` argument whose
value token is an identifier absent from the constant table compiles to a
Const node with value 0 while leaving an empty skip flag empty; since the
skip flag is reset to empty before each call and `skipSyscall` only
overwrites a non-empty flag, the flag is still empty after all arguments
compile, so the resolved call number is never demoted to the unavailable
sentinel: every successfully compiled call keeps exactly the number looked
up from the constant table. -/
theorem claim_C1_const_skip_inert :
    (∀ why, skipSyscall why "" = "") ∧
    (∀ (fuel : Nat) (parent name dirStr v : String) (desc : Description)
       (consts : Consts) (dd : Dir),
       alookup consts v = none → isIdentifier v = true → v ≠ "opt" →
       fmtDir dirStr = .ok dd →
       generateArg (fuel + 1) parent name "const" dirStr [v] desc consts true false "" =
         .ok (.constT ⟨name, dd, false⟩ ptrSize false "0", "")) ∧
    (∀ (fuel : Nat) (desc : Description) (consts : Consts) (s : Syscall)
       (cd : CallDescriptor),
       compileCall fuel desc consts s = .ok cd → cd.nr = baseNR consts s.callName) := by
  refine ⟨fun why => skipSyscall_empty why, ?_, ?_⟩
  · intro fuel parent name dirStr v desc consts dd h1 h2 h3 h4
    unfold generateArg
    rw [generateArgCore_const, stripOpt_single v h3]
    unfold genConst
    simp only [Bool.false_eq_true, if_false, h1, h2, mkCommon_ok name dirStr false dd h4,
      if_true, skipSyscall_empty]
    rfl
  · intro fuel desc consts s cd h
    unfold compileCall at h
    split at h
    · exact Except.noConfusion h
    · rename_i retT sk1 hret
      have hsk1 : sk1 = "" := compileRet_skip_empty fuel desc consts s.ret retT sk1 hret
      subst hsk1
      split at h
      · exact Except.noConfusion h
      · rename_i argsT sk2 hargs
        have hsk2 : sk2 = "" := compileArgs_skip_empty fuel desc consts s.args argsT sk2 hargs
        subst hsk2
        injection h with hp
        rw [← hp]
        simp

/-- Witness for C1 at concrete inputs: a missing identifier `FOO` compiles
to Const 0, and a call with such an argument keeps its looked-up number
63. -/
theorem claim_C1_witness :
    skipSyscall "why" "" = "" ∧
    generateArg 1 "" "c0" "const" "in" ["FOO"] emptyDesc [] true false "" =
      .ok (.constT ⟨"c0", .DirIn, false⟩ ptrSize false "0", "") ∧
    (⟨"r", "read", 63, none, [.constT ⟨"c", .DirIn, false⟩ 8 false "0"]⟩ :
        CallDescriptor).nr = baseNR [("__NR_read", 63)] "read" :=
  ⟨claim_C1_const_skip_inert.1 "why",
   claim_C1_const_skip_inert.2.1 0 "" "c0" "in" "FOO" emptyDesc [] .DirIn rfl (by decide)
     (by decide) rfl,
   claim_C1_const_skip_inert.2.2 1 emptyDesc [("__NR_read", 63)]
     ⟨"r", "read", [("c", "const", ["FOO"])], []⟩
     ⟨"r", "read", 63, none, [.constT ⟨"c", .DirIn, false⟩ 8 false "0"]⟩ (by rfl)⟩

/-- C8: a call whose CallName has no constant-table entry still compiles:
the emitted descriptor carries the sentinel number -1, the return type (if
declared) is present, and there is one compiled argument per declared
argument, in declaration order; the descriptor itself is emitted. -/
theorem claim_C8_unavailable_call_emitted
    (fuel : Nat) (desc : Description) (consts : Consts) (s : Syscall)
    (retT : Option IRType) (sk1 : String) (argsT : List IRType) (sk2 : String)
    (hnr : alookup consts ("__NR_" ++ s.callName) = none)
    (hret : compileRet fuel desc consts s.ret "" = .ok (retT, sk1))
    (hargs : compileArgs fuel desc consts s.args sk1 = .ok (argsT, sk2)) :
    compileCall fuel desc consts s = .ok ⟨s.name, s.callName, -1, retT, argsT⟩ ∧
    argsT.length = s.args.length ∧
    (s.ret ≠ [] → retT.isSome = true) := by
  have hsk1 : sk1 = "" := compileRet_skip_empty fuel desc consts s.ret retT sk1 hret
  subst hsk1
  have hsk2 : sk2 = "" := compileArgs_skip_empty fuel desc consts s.args argsT sk2 hargs
  subst hsk2
  refine ⟨?_, compileArgs_length fuel desc consts s.args "" argsT "" hargs, ?_⟩
  · simp only [compileCall, hret, hargs]
    simp [baseNR, hnr]
  · intro hne
    unfold compileRet at hret
    split at hret
    · exact absurd (by assumption) hne
    · split at hret
      · exact Except.noConfusion hret
      · injection hret with hp
        simp only [Prod.mk.injEq] at hp
        rw [← hp.1]
        rfl

/-- Witness for C8: `read$v` with no `__NR_read` entry compiles to a full
descriptor with sentinel number -1, one argument and a return type. -/
theorem claim_C8_witness :
    compileCall 1 emptyDesc [] ⟨"read$v", "read", [("fd", "intptr", [])], ["intptr"]⟩ =
      .ok ⟨"read$v", "read", -1,
        some (.intT ⟨"ret", .DirOut, false⟩ 8 false .intPlain),
        [.intT ⟨"fd", .DirIn, false⟩ 8 false .intPlain]⟩ ∧
    [IRType.intT ⟨"fd", .DirIn, false⟩ 8 false .intPlain].length =
      [("fd", "intptr", ([] : List String))].length ∧
    ((["intptr"] : List String) ≠ [] →
      (some (IRType.intT ⟨"ret", .DirOut, false⟩ 8 false .intPlain)).isSome = true) :=
  claim_C8_unavailable_call_emitted 1 emptyDesc []
    ⟨"read$v", "read", [("fd", "intptr", [])], ["intptr"]⟩
    (some (.intT ⟨"ret", .DirOut, false⟩ 8 false .intPlain)) ""
    [.intT ⟨"fd", .DirIn, false⟩ 8 false .intPlain] ""
    rfl (by rfl) (by rfl)

/-- C2 counterexample: a `filename` field compiled in an `out` context with
the `opt` marker yields a Pointer that keeps direction `out` and
optionality `true` (not the forced `in`/`false` the claim states), while
the forced values land on the inner Buffer instead. -/
theorem claim_C2_counterexample :
    generateArg 1 "" "f" "filename" "out" ["opt"] emptyDesc [] false true "" =
      .ok (.ptrT ⟨"f", .DirOut, true⟩ (.bufferFilename ⟨"f", .DirIn, false⟩), "") ∧
    Dir.DirOut ≠ Dir.DirIn ∧ (true : Bool) ≠ false :=
  ⟨rfl, by decide, by decide⟩

/-- C2 amended: for `buffer` and `filename` the compiled node is a Pointer
wrapping a Buffer, where the OUTER Pointer keeps the context direction and
the requested optionality, while the INNER Buffer gets the direction
parameter (for `buffer`) or `in` (for `filename`) with optionality forced
to false. -/
theorem claim_C2_buffer_filename_headers
    (fuel : Nat) (parent name dirStr bufDir : String) (a : List String)
    (desc : Description) (consts : Consts) (isArg isField : Bool) (skip : String)
    (o : Bool) (dd di : Dir)
    (hd : fmtDir dirStr = .ok dd) :
    (stripOpt a = ([bufDir], o) → fmtDir bufDir = .ok di →
      generateArg (fuel + 1) parent name "buffer" dirStr a desc consts isArg isField skip =
        .ok (.ptrT ⟨name, dd, o⟩ (.bufferBlobRand ⟨name, di, false⟩), skip)) ∧
    (stripOpt a = ([], o) →
      generateArg (fuel + 1) parent name "filename" dirStr a desc consts isArg isField skip =
        .ok (.ptrT ⟨name, dd, o⟩ (.bufferFilename ⟨name, .DirIn, false⟩), skip)) := by
  constructor
  · intro hstrip hdi
    unfold generateArg
    rw [generateArgCore_buffer, hstrip]
    simp [genBuffer, mkCommon, hd, hdi]
  · intro hstrip
    unfold generateArg
    rw [generateArgCore_filename, hstrip]
    simp only [genFilename, mkCommon, hd]
    simp [fmtDir]

/-- Witness for the amended C2 at concrete inputs: an optional out-context
buffer with direction parameter `in`, and a plain top-level filename. -/
theorem claim_C2_witness :
    generateArg 1 "" "x" "buffer" "out" ["in", "opt"] emptyDesc [] false true "" =
      .ok (.ptrT ⟨"x", .DirOut, true⟩ (.bufferBlobRand ⟨"x", .DirIn, false⟩), "") ∧
    generateArg 1 "" "f" "filename" "in" [] emptyDesc [] true false "" =
      .ok (.ptrT ⟨"f", .DirIn, false⟩ (.bufferFilename ⟨"f", .DirIn, false⟩), "") :=
  ⟨(claim_C2_buffer_filename_headers 0 "" "x" "out" "in" ["in", "opt"] emptyDesc []
      false true "" true .DirOut .DirIn rfl).1 (by decide) rfl,
   (claim_C2_buffer_filename_headers 0 "" "f" "in" "" [] emptyDesc []
      true false "" false .DirIn .DirIn rfl).2 (by decide)⟩

/-- C9: the proc-type overflow validation computes its width bound as the
Go `int64` shift `1 << (size*8)`, which is 0 when `size = 8`; a top-level
`proc` argument (size 8) with start 0 and stride 1 — which satisfies the
claim conditions P >= 1, S < 2^64, S + 32 P < 2^64 over exact integers —
is rejected with a fatal error whose message asserts that 0 overflows an
8-byte type. -/
theorem claim_C9_proc_size8_wrongly_rejected :
    generateArg 1 "" "p0" "proc" "in" ["0", "1"] emptyDesc [] true false "" =
      .error (.fatal "values starting from 0 overflow desired type of size 8") ∧
    goShl1int64 (8 * 8) = 0 ∧
    (1 : Int) ≥ 1 ∧ (0 : Int) < 2 ^ 64 ∧ (0 : Int) + 32 * 1 < 2 ^ 64 :=
  ⟨rfl, rfl, by norm_num, by norm_num, by norm_num⟩

/-- The self-referential resource `A` (Base names itself). -/
def resA : Resource := ⟨"A", "A", []⟩

/-- A description whose only resource is the cyclic `A`. -/
def cycleDesc : Description := ⟨[], [], [("A", resA)], [], [], []⟩

/-- A resource whose Base names nothing known. -/
def resB : Resource := ⟨"B", "nosuch", []⟩

/-- A description whose only resource has an unknown parent. -/
def unknownDesc : Description := ⟨[], [], [("B", resB)], [], [], []⟩

/-- The base-chain walk on the cyclic resource never reaches an exit: it
runs out of any amount of fuel (the source loop has no cycle guard and
spins forever). -/
theorem resolveLoop_cycle_A :
    ∀ (fuel : Nat) (kind values : List String),
    resolveLoop fuel [("A", resA)] [] resA "A" kind values = .error .outOfFuel := by
  intro fuel
  induction fuel with
  | zero => intro kind values; rfl
  | succ n ih => intro kind values; exact ih ("A" :: kind) values

/-- C4: the resource-hierarchy walk is fatal on an unknown Base, as the
claim requires, but a cyclic Base chain is NOT detected: resolving the
resource `A` with Base `A` exhausts every fuel bound, i.e. the source loop
never terminates, where the claim requires a detected fatal error. -/
theorem claim_C4_resource_cycle_not_detected :
    (∀ fuel : Nat, generateResource fuel cycleDesc [] resA = .error .outOfFuel) ∧
    (∀ fuel : Nat, generateResource (fuel + 1) unknownDesc [] resB =
      .error (.fatal "resource B has unknown parent resource")) := by
  constructor
  · intro fuel
    unfold generateResource
    rw [show cycleDesc.resources = [("A", resA)] from rfl,
      show resA.name = "A" from rfl,
      resolveLoop_cycle_A fuel ["A"] []]
  · intro fuel
    rfl

/-- C10: a type token naming a known resource (and not a struct, not an
unnamed token, not a builtin construct), used at top level with zero
parameters, compiles successfully to a resource reference: the resource
branch returns early, so the final top-level eligibility check — which
would otherwise fire, since the branch leaves `canBeArg` false — is never
reached. -/
theorem claim_C10_resource_arg_bypasses_check
    (fuel : Nat) (parent name typ dirStr : String) (desc : Description)
    (consts : Consts) (r : Resource) (dd : Dir) (isField : Bool) (skip : String)
    (hc : classify typ = .other)
    (hu : beginsWith typ "unnamed" = false)
    (hs : alookup desc.structs typ = none)
    (hr : alookup desc.resources typ = some r)
    (hd : fmtDir dirStr = .ok dd) :
    generateArg (fuel + 1) parent name typ dirStr [] desc consts true isField skip =
      .ok (.resourceRef ⟨name, dd, false⟩ typ, skip) := by
  unfold generateArg
  rw [generateArgCore_other fuel parent name typ dirStr [] desc consts isField skip hc]
  simp only [genDefault, stripOpt, hu, hs, hr, mkCommon, hd]
  simp

/-- Witness for C10: resource `fd` as a top-level argument compiles to a
resource reference. -/
theorem claim_C10_witness :
    generateArg 1 "" "r0" "fd" "in" []
      ⟨[], [], [("fd", ⟨"fd", "int32", []⟩)], [], [], []⟩ [] true false "" =
      .ok (.resourceRef ⟨"r0", .DirIn, false⟩ "fd", "") :=
  claim_C10_resource_arg_bypasses_check 0 "" "r0" "fd" "in"
    ⟨[], [], [("fd", ⟨"fd", "int32", []⟩)], [], [], []⟩ [] ⟨"fd", "int32", []⟩
    .DirIn false "" rfl (by decide) rfl rfl rfl

/-- Helper for C5: the array branch of the core never sets `canBeArg` and
never bypasses the final check. -/
theorem genArray_flags (recur : GenRec) (consts : Consts) (name typ dirStr : String)
    (a : List String) (opt : Bool) (skip : String) (t : IRType) (sk : String)
    (cba bp : Bool)
    (h : genArray recur consts name typ dirStr a opt skip = .ok (t, sk, cba, bp)) :
    cba = false ∧ bp = false := by
  unfold genArray at h
  iterate 6 (all_goals (try split at h))
  all_goals (try (exact Except.noConfusion h))
  all_goals (injection h with hp)
  all_goals (simp only [Prod.mk.injEq] at hp)
  all_goals (exact ⟨hp.2.2.1.symm, hp.2.2.2.symm⟩)

/-- Helper for C5: the struct-reference alternative of the default branch
never sets `canBeArg` and never bypasses the final check. -/
theorem genDefault_struct_flags (recur : GenRec) (desc : Description)
    (name typ dirStr : String) (a : List String) (opt isField : Bool) (skip : String)
    (t : IRType) (sk : String) (cba bp : Bool) (s : Struct)
    (hu : beginsWith typ "unnamed" = false)
    (hs : alookup desc.structs typ = some s)
    (h : genDefault recur desc name typ dirStr a opt isField skip = .ok (t, sk, cba, bp)) :
    cba = false ∧ bp = false := by
  unfold genDefault at h
  rw [hu] at h
  simp only [Bool.false_eq_true, if_false, hs] at h
  split at h
  · injection h with hp
    simp only [Prod.mk.injEq] at hp
    exact ⟨hp.2.2.1.symm, hp.2.2.2.symm⟩
  · exact Except.noConfusion h

/-- Inversion of the wrapper for non-argument compilation: with
`isArg = false` the final check is vacuous, so success comes straight from
the core. -/
theorem generateArg_nonArg_inv (fuel : Nat) (parent name typ dirStr : String)
    (a : List String) (desc : Description) (consts : Consts) (isField : Bool)
    (skip : String) (t : IRType) (sk : String)
    (h : generateArg fuel parent name typ dirStr a desc consts false isField skip =
      .ok (t, sk)) :
    ∃ cba bp, generateArgCore fuel parent name typ dirStr a desc consts isField skip =
      .ok (t, sk, cba, bp) := by
  unfold generateArg at h
  split at h
  · exact Except.noConfusion h
  · split at h
    · exact Except.noConfusion h
    · injection h with hp
      simp only [Prod.mk.injEq] at hp
      obtain ⟨h1, h2⟩ := hp
      subst h1
      subst h2
      exact ⟨_, _, by assumption⟩

/-- C5: at top level, a bare `array` that compiles as a non-argument fails
fatally with the eligibility error when compiled as an argument, and so
does a bare struct/union reference; the same array (via an unnamed inline
type, the only way the schema nests a parameterised type under `ptr`) and
the same struct reference compile successfully as the pointee of a `ptr`.
-/
theorem claim_C5_bare_array_struct_top_level
    (fuel : Nat) (parent name dirStr : String) (a : List String)
    (desc : Description) (consts : Consts) (skip : String) :
    (∀ t sk, generateArg fuel parent name "array" dirStr a desc consts false false skip =
        .ok (t, sk) →
      generateArg fuel parent name "array" dirStr a desc consts true false skip =
        .error (.fatal (canBeArgMsg name "array"))) ∧
    (∀ (typ : String) (s : Struct) (t : IRType) (sk : String),
      classify typ = .other → beginsWith typ "unnamed" = false →
      alookup desc.structs typ = some s →
      generateArg fuel parent name typ dirStr a desc consts false false skip = .ok (t, sk) →
      generateArg fuel parent name typ dirStr a desc consts true false skip =
        .error (.fatal (canBeArgMsg name typ))) ∧
    (∀ (u pdir : String) (rest : List String) (elemT : IRType) (sk : String),
      pdir ≠ "opt" → u ≠ "opt" →
      classify u = .other → beginsWith u "unnamed" = true →
      alookup desc.unnamed u = some ("array" :: rest) →
      generateArg fuel "" "" "array" pdir rest desc consts false true skip = .ok (elemT, sk) →
      generateArg (fuel + 2) parent name "ptr" dirStr [pdir, u] desc consts true false skip =
        .ok (.ptrT ⟨name, .DirIn, false⟩ elemT, sk)) ∧
    (∀ (typ pdir : String) (s : Struct),
      pdir ≠ "opt" → typ ≠ "opt" →
      classify typ = .other → beginsWith typ "unnamed" = false →
      alookup desc.structs typ = some s →
      generateArg (fuel + 2) parent name "ptr" dirStr [pdir, typ] desc consts true false skip =
        .ok (.ptrT ⟨name, .DirIn, false⟩ (.structRef ⟨typ, "", pdir⟩), skip)) := by
  refine ⟨?_, ?_, ?_, ?_⟩
  · intro t sk h
    obtain ⟨cba, bp, hcore⟩ :=
      generateArg_nonArg_inv fuel parent name "array" dirStr a desc consts false skip t sk h
    cases fuel with
    | zero => exact absurd hcore (by simp [generateArgCore])
    | succ m =>
      rw [generateArgCore_array] at hcore
      obtain ⟨hcba, hbp⟩ := genArray_flags _ _ _ _ _ _ _ _ _ _ _ _ hcore
      subst hcba
      subst hbp
      unfold generateArg
      rw [generateArgCore_array, hcore]
      simp
  · intro typ s t sk hcl hbw hs h
    obtain ⟨cba, bp, hcore⟩ :=
      generateArg_nonArg_inv fuel parent name typ dirStr a desc consts false skip t sk h
    cases fuel with
    | zero => exact absurd hcore (by simp [generateArgCore])
    | succ m =>
      rw [generateArgCore_other m parent name typ dirStr a desc consts false skip hcl] at hcore
      obtain ⟨hcba, hbp⟩ :=
        genDefault_struct_flags _ _ _ _ _ _ _ _ _ _ _ _ _ s hbw hs hcore
      subst hcba
      subst hbp
      unfold generateArg
      rw [generateArgCore_other m parent name typ dirStr a desc consts false skip hcl, hcore]
      simp
  · intro u pdir rest elemT sk hp1 hp2 hcl hbw hun harr
    obtain ⟨cba, bp, hcore⟩ :=
      generateArg_nonArg_inv fuel "" "" "array" pdir rest desc consts true skip elemT sk harr
    unfold generateArg
    rw [show fuel + 2 = (fuel + 1) + 1 from rfl, generateArgCore_ptr,
      stripOpt_pair pdir u hp1 hp2]
    simp only [genPtr]
    rw [show mkCommon name "in" false = .ok ⟨name, .DirIn, false⟩ from rfl]
    rw [generateArgCore_other fuel "" "" u pdir [] desc consts true skip hcl]
    simp only [genDefault, hbw, if_true, hun, hcore]
    simp
  · intro typ pdir s hp1 hp2 hcl hbw hs
    unfold generateArg
    rw [show fuel + 2 = (fuel + 1) + 1 from rfl, generateArgCore_ptr,
      stripOpt_pair pdir typ hp1 hp2]
    simp only [genPtr]
    rw [show mkCommon name "in" false = .ok ⟨name, .DirIn, false⟩ from rfl]
    rw [generateArgCore_other fuel "" "" typ pdir [] desc consts true skip hcl]
    simp only [genDefault, hbw, hs, stripOpt]
    simp

/-- Witness for C5 at a concrete description with a struct `S` and an
unnamed inline `array[int32]`. -/
theorem claim_C5_witness :
    generateArg 2 "" "a0" "array" "in" ["int32"]
      ⟨[], [("S", ⟨"S", [], false, false, false, 0⟩)], [], [], [],
        [("unnamed0", ["array", "int32"])]⟩ [] true false "" =
      .error (.fatal (canBeArgMsg "a0" "array")) ∧
    generateArg 1 "" "s0" "S" "in" []
      ⟨[], [("S", ⟨"S", [], false, false, false, 0⟩)], [], [], [],
        [("unnamed0", ["array", "int32"])]⟩ [] true false "" =
      .error (.fatal (canBeArgMsg "s0" "S")) ∧
    generateArg 4 "" "p0" "ptr" "in" ["in", "unnamed0"]
      ⟨[], [("S", ⟨"S", [], false, false, false, 0⟩)], [], [], [],
        [("unnamed0", ["array", "int32"])]⟩ [] true false "" =
      .ok (.ptrT ⟨"p0", .DirIn, false⟩
        (.arrayRandLen ⟨"", .DirIn, false⟩ (.intT ⟨"", .DirIn, false⟩ 4 false .intPlain)), "") ∧
    generateArg 2 "" "p1" "ptr" "in" ["in", "S"]
      ⟨[], [("S", ⟨"S", [], false, false, false, 0⟩)], [], [], [],
        [("unnamed0", ["array", "int32"])]⟩ [] true false "" =
      .ok (.ptrT ⟨"p1", .DirIn, false⟩ (.structRef ⟨"S", "", "in"⟩), "") :=
  ⟨(claim_C5_bare_array_struct_top_level 2 "" "a0" "in" ["int32"] _ [] "").1 _ _ rfl,
   (claim_C5_bare_array_struct_top_level 1 "" "s0" "in" [] _ [] "").2.1 "S"
     ⟨"S", [], false, false, false, 0⟩ _ _ rfl (by decide) rfl rfl,
   (claim_C5_bare_array_struct_top_level 2 "" "p0" "in" [] _ [] "").2.2.1 "unnamed0" "in"
     ["int32"] _ "" (by decide) (by decide) rfl (by decide) rfl rfl,
   (claim_C5_bare_array_struct_top_level 0 "" "p1" "in" [] _ [] "").2.2.2 "S" "in"
     ⟨"S", [], false, false, false, 0⟩ (by decide) (by decide) rfl (by decide) rfl⟩

/-- Padding a value that fits yields exactly the fixed length. -/
theorem padZeros_length (s : String) (size : Nat) (h : s.length ≤ size) :
    (padZeros s size).length = size := by
  unfold padZeros
  rw [String.length_append]
  rw [show (String.mk (List.replicate (size - s.length) nulChar)).length =
    (List.replicate (size - s.length) nulChar).length from rfl]
  rw [List.length_replicate]
  omega

/-- A value list with an over-long member makes the validation loop fail
fatally. -/
theorem padVals_error (name : String) (size : Nat) :
    ∀ l : List String, (∃ v ∈ l, size < v.length) →
    ∃ msg, padVals name size l = .error (.fatal msg) := by
  intro l
  induction l with
  | nil => intro h; exact absurd h (by simp)
  | cons s r ih =>
    intro h
    unfold padVals
    by_cases hs : size < s.length
    · exact ⟨_, by rw [if_pos hs]⟩
    · have hr : ∃ v ∈ r, size < v.length := by
        obtain ⟨v, hv, hlen⟩ := h
        cases hv with
        | head => exact absurd hlen hs
        | tail _ hm => exact ⟨v, hm, hlen⟩
      obtain ⟨msg, hmsg⟩ := ih hr
      refine ⟨msg, ?_⟩
      rw [if_neg hs, hmsg]

/-- A value list where every member fits is zero-padded pointwise. -/
theorem padVals_ok (name : String) (size : Nat) :
    ∀ l : List String, (∀ v ∈ l, v.length ≤ size) →
    padVals name size l = .ok (l.map (fun s => padZeros s size)) := by
  intro l
  induction l with
  | nil => intro _; rfl
  | cons s r ih =>
    intro h
    unfold padVals
    rw [if_neg (by simpa using Nat.not_lt.mpr (h s (List.mem_cons_self s r)))]
    rw [ih (fun v hv => h v (List.mem_cons_of_mem s hv))]
    rfl

/-- Every member is bounded by the maximum length. -/
theorem le_maxLenVals : ∀ (l : List String), ∀ v ∈ l, v.length ≤ maxLenVals l := by
  intro l
  induction l with
  | nil => intro v hv; exact absurd hv (by simp)
  | cons s r ih =>
    intro v hv
    cases hv with
    | head => exact Nat.le_max_left _ _
    | tail _ hm =>
      exact Nat.le_trans (ih v hm) (Nat.le_max_right s.length (maxLenVals r))

/-- C3: for a `string` construct with a fixed-length parameter, an
enumerated value (null terminator included) longer than the fixed length
is a fatal error; with the fixed length exactly the longest value, the
construct compiles and every value is zero-padded with trailing zero bytes
to exactly that length. -/
theorem claim_C3_string_fixed_length
    (fuel : Nat) (parent name dirStr a0 a1 : String) (desc : Description)
    (consts : Consts) (isField : Bool) (skip : String)
    (vals0 : List String) (subkind : String) (size : Nat) (dd : Dir)
    (h0 : a0 ≠ "opt") (h1 : a1 ≠ "opt")
    (hv : stringVals desc [a0, a1] = .ok (vals0, subkind))
    (hl : resolveStringLen consts a1 = .ok size)
    (hd : fmtDir dirStr = .ok dd) :
    ((∃ v ∈ nullTerminate vals0, size < v.length) →
      ∃ msg, generateArg (fuel + 1) parent name "string" dirStr [a0, a1] desc consts
        false isField skip = .error (.fatal msg)) ∧
    (size = maxLenVals (nullTerminate vals0) →
      generateArg (fuel + 1) parent name "string" dirStr [a0, a1] desc consts
        false isField skip =
        .ok (.bufferString ⟨name, dd, false⟩ subkind
          ((nullTerminate vals0).map (fun s => padZeros s size)), skip) ∧
      ∀ v ∈ (nullTerminate vals0).map (fun s => padZeros s size), v.length = size) := by
  constructor
  · intro hex
    obtain ⟨msg, hpv⟩ := padVals_error name size (nullTerminate vals0) hex
    refine ⟨msg, ?_⟩
    unfold generateArg
    rw [generateArgCore_string, stripOpt_pair a0 a1 h0 h1]
    simp only [genString, List.length_cons, List.length_nil, hv, hl, hpv]
    simp
  · intro hmax
    have hbound : ∀ v ∈ nullTerminate vals0, v.length ≤ size := by
      intro v hv2
      rw [hmax]
      exact le_maxLenVals (nullTerminate vals0) v hv2
    have hpv := padVals_ok name size (nullTerminate vals0) hbound
    constructor
    · unfold generateArg
      rw [generateArgCore_string, stripOpt_pair a0 a1 h0 h1]
      simp only [genString, List.length_cons, List.length_nil, hv, hl, hpv,
        mkCommon, hd]
      simp
    · intro v hv2
      simp only [List.mem_map] at hv2
      obtain ⟨w, hw, hpad⟩ := hv2
      rw [← hpad]
      exact padZeros_length w size (hbound w hw)

/-- Witness for C3 with string-flag set `fl = {ab, c}` (null-terminated
lengths 3 and 2): fixed length 2 is fatal; fixed length 3 succeeds with
both values padded to exactly 3 bytes. -/
theorem claim_C3_witness :
    (∃ msg, generateArg 1 "" "s0" "string" "in" ["fl", "2"]
      ⟨[], [], [], [], [("fl", ["ab", "c"])], []⟩ [] false true "" =
      .error (.fatal msg)) ∧
    (generateArg 1 "" "s0" "string" "in" ["fl", "3"]
      ⟨[], [], [], [], [("fl", ["ab", "c"])], []⟩ [] false true "" =
      .ok (.bufferString ⟨"s0", .DirIn, false⟩ "fl" ["ab\x00", "c\x00\x00"], "") ∧
     ∀ v ∈ ["ab\x00", "c\x00\x00"], String.length v = 3) :=
  ⟨(claim_C3_string_fixed_length 0 "" "s0" "in" "fl" "2"
      ⟨[], [], [], [], [("fl", ["ab", "c"])], []⟩ [] true "" ["ab", "c"] "fl" 2 .DirIn
      (by decide) (by decide) rfl rfl rfl).1 ⟨"ab\x00", by decide, by decide⟩,
   by
    have h := (claim_C3_string_fixed_length 0 "" "s0" "in" "fl" "3"
      ⟨[], [], [], [], [("fl", ["ab", "c"])], []⟩ [] true "" ["ab", "c"] "fl" 3 .DirIn
      (by decide) (by decide) rfl rfl rfl).2 (by decide)
    exact ⟨h.1, by intro v hv; exact h.2 v hv⟩⟩

/-- Concatenation of a list of value lists (ancestor value blocks). -/
def concatAll : List (List String) → List String
  | [] => []
  | l :: r => l ++ concatAll r

theorem concatAll_append (l1 l2 : List (List String)) :
    concatAll (l1 ++ l2) = concatAll l1 ++ concatAll l2 := by
  induction l1 with
  | nil => rfl
  | cons a t ih => simp [concatAll, ih]

/-- The chain of (lookup key, resource) pairs the base-chain walk visits,
furthest ancestor first and the starting resource last; primitive bases
terminate, unknown bases are fatal, and fuel bounds the walk exactly as in
`resolveLoop`. -/
def chainMembers : Nat → List (String × Resource) → Resource → String →
    Except GenErr (List (String × Resource))
  | 0, _, _, _ => .error .outOfFuel
  | Nat.succ fuel, rs, res, key =>
    if primBase res.base then .ok [(key, res)]
    else
      match alookup rs res.base with
      | none => .error (.fatal "unknown parent resource")
      | some p =>
        match chainMembers fuel rs p res.base with
        | .error e => .error e
        | .ok ms => .ok (ms ++ [(key, res)])

theorem chainMembers_ne_nil (fuel : Nat) (rs : List (String × Resource))
    (res : Resource) (key : String) (ms : List (String × Resource))
    (h : chainMembers fuel rs res key = .ok ms) : ms ≠ [] := by
  cases fuel with
  | zero => exact absurd h (by simp [chainMembers])
  | succ n =>
    unfold chainMembers at h
    iterate 4 (all_goals (try split at h))
    all_goals (try (exact Except.noConfusion h))
    all_goals (injection h with h1)
    all_goals (rw [← h1]; simp)

theorem chainMembers_getLast (fuel : Nat) (rs : List (String × Resource))
    (res : Resource) (key : String) (ms : List (String × Resource))
    (h : chainMembers fuel rs res key = .ok ms) :
    ms.getLast? = some (key, res) := by
  cases fuel with
  | zero => exact absurd h (by simp [chainMembers])
  | succ n =>
    unfold chainMembers at h
    iterate 4 (all_goals (try split at h))
    all_goals (try (exact Except.noConfusion h))
    all_goals (injection h with h1)
    all_goals (rw [← h1])
    · rfl
    · exact List.getLast?_concat _

theorem chainMembers_head_prim :
    ∀ (fuel : Nat) (rs : List (String × Resource)) (res : Resource) (key : String)
      (ms : List (String × Resource)) (h0 : String × Resource),
    chainMembers fuel rs res key = .ok ms → ms.head? = some h0 →
    primBase h0.2.base = true := by
  intro fuel
  induction fuel with
  | zero =>
    intro rs res key ms h0 h
    exact absurd h (by simp [chainMembers])
  | succ n ih =>
    intro rs res key ms h0 h hh
    unfold chainMembers at h
    by_cases hp : primBase res.base = true
    · rw [if_pos hp] at h
      injection h with h1
      rw [← h1] at hh
      simp at hh
      rw [← hh]
      exact hp
    · rw [if_neg hp] at h
      split at h
      · exact Except.noConfusion h
      · rename_i p halk
        split at h
        · exact Except.noConfusion h
        · rename_i ms' hcm
          injection h with h1
          have hne : ms' ≠ [] := chainMembers_ne_nil n rs p res.base ms' hcm
          have hh' : ms'.head? = some h0 := by
            cases ms' with
            | nil => exact absurd rfl hne
            | cons a t =>
              rw [← h1] at hh
              simpa using hh
          exact ih rs p res.base ms' h0 hcm hh'

theorem getLast?_map_fst :
    ∀ (ms : List (String × Resource)) (p : String × Resource),
    ms.getLast? = some p → (ms.map Prod.fst).getLast? = some p.1 := by
  intro ms
  induction ms with
  | nil => intro p h; exact Option.noConfusion h
  | cons a t ih =>
    intro p h
    cases t with
    | nil =>
      simp at h
      rw [h]
      rfl
    | cons b u =>
      rw [List.getLast?_cons_cons] at h
      simp only [List.map_cons]
      rw [List.getLast?_cons_cons]
      have := ih p h
      simpa using this

/-- The base-chain walk, characterised by the visited chain: starting from
a resource whose chain is `ms` (ancestor-first, self-last), the loop
returns the furthest ancestor's primitive base, the chain keys prepended
to the kind accumulator, and the concatenation of every member's resolved
own values (ancestor blocks before descendant blocks) prepended to the
value accumulator. -/
theorem resolveLoop_of_chain :
    ∀ (fuel : Nat) (rs : List (String × Resource)) (consts : Consts) (res : Resource)
      (key nm : String) (krest values : List String) (ms : List (String × Resource))
      (h0 : String × Resource),
    chainMembers fuel rs res key = .ok ms → ms.head? = some h0 →
    resolveLoop fuel rs consts res nm (key :: krest) values =
      .ok (h0.2.base, ms.map Prod.fst ++ krest,
        concatAll (ms.map fun m => resolveValues consts m.2.values) ++ values) := by
  intro fuel
  induction fuel with
  | zero =>
    intro rs consts res key nm krest values ms h0 h
    exact absurd h (by simp [chainMembers])
  | succ n ih =>
    intro rs consts res key nm krest values ms h0 hch hh
    unfold chainMembers at hch
    unfold resolveLoop
    by_cases hp : primBase res.base = true
    · rw [if_pos hp] at hch ⊢
      injection hch with h1
      rw [← h1] at hh
      simp at hh
      subst hh
      rw [← h1]
      simp [concatAll]
    · rw [if_neg hp] at hch ⊢
      split at hch
      · exact Except.noConfusion hch
      · rename_i p halk
        split at hch
        · exact Except.noConfusion hch
        · rename_i ms' hcm
          injection hch with h1
          have hne : ms' ≠ [] := chainMembers_ne_nil n rs p res.base ms' hcm
          have hh' : ms'.head? = some h0 := by
            cases ms' with
            | nil => exact absurd rfl hne
            | cons a t =>
              rw [← h1] at hh
              simpa using hh
          try simp only [halk]
          rw [ih rs consts p res.base nm (key :: krest)
            (resolveValues consts res.values ++ values) ms' h0 hcm hh']
          rw [← h1]
          simp [List.map_append, concatAll_append, concatAll, List.append_assoc]

theorem primBase_cases (b : String) (h : primBase b = true) :
    b = "int8" ∨ b = "int16" ∨ b = "int32" ∨ b = "int64" ∨ b = "intptr" := by
  simp only [primBase, Bool.or_eq_true, decide_eq_true_eq] at h
  tauto

/-- The `resource-type` node `generateResources` emits for the underlying
primitive kind of a resource. -/
theorem underlyingType_ok (fuel : Nat) (desc : Description) (consts : Consts)
    (b : String) (sz : Nat) (h : primBase b = true)
    (hdec : decodeIntType b = .ok (sz, false)) :
    generateArg (fuel + 1) "" "resource-type" b "inout" [] desc consts true true "" =
      .ok (.intT ⟨"resource-type", .DirInOut, false⟩ sz false .intPlain, "") := by
  rcases primBase_cases b h with rfl | rfl | rfl | rfl | rfl
  all_goals (injection hdec with hd; injection hd with hd1 hd2)
  all_goals (rw [← hd1]; rfl)

/-- C7: for a resource whose base chain is `ms` (furthest ancestor first,
the resource itself last — the shape `chainMembers` produces), the
resolved descriptor has kind chain exactly the chain member names in that
order (so N hops to a primitive kind give N+1 entries, with the resource
itself last), its values are the position-preserving concatenation of each
member's own resolved values with ancestor blocks first, defaulted to the
single value 0 when the concatenation is empty, and its underlying type is
the primitive integer kind of the furthest ancestor. -/
theorem claim_C7_resource_chain
    (fuel : Nat) (desc : Description) (consts : Consts) (res : Resource)
    (ms : List (String × Resource)) (h0 : String × Resource) (sz : Nat)
    (hch : chainMembers fuel desc.resources res res.name = .ok ms)
    (hh : ms.head? = some h0)
    (hdec : decodeIntType h0.2.base = .ok (sz, false)) :
    generateResource fuel desc consts res =
      .ok ⟨res.name, .intT ⟨"resource-type", .DirInOut, false⟩ sz false .intPlain,
        ms.map Prod.fst,
        (if concatAll (ms.map fun m => resolveValues consts m.2.values) = [] then ["0"]
         else concatAll (ms.map fun m => resolveValues consts m.2.values))⟩ ∧
    (ms.map Prod.fst).length = ms.length ∧
    (ms.map Prod.fst).getLast? = some res.name := by
  cases fuel with
  | zero => exact absurd hch (by simp [chainMembers])
  | succ n =>
    refine ⟨?_, by simp, ?_⟩
    · have hloop := resolveLoop_of_chain (n + 1) desc.resources consts res res.name
        res.name [] [] ms h0 hch hh
      have hprim := chainMembers_head_prim (n + 1) desc.resources res res.name ms h0 hch hh
      have hua := underlyingType_ok n desc consts h0.2.base sz hprim hdec
      simp only [generateResource, hloop, hua]
      simp
    · exact getLast?_map_fst ms (res.name, res)
        (chainMembers_getLast (n + 1) desc.resources res res.name ms hch)

/-- Witness for C7: `sock` inherits from `fd` (base `int32`); the chain has
two members, kind = [fd, sock], values = ancestor values [42, 5] before
descendant values [7], underlying 4-byte int. -/
theorem claim_C7_witness :
    generateResource 2
      ⟨[], [], [("fd", ⟨"fd", "int32", ["X", "5"]⟩), ("sock", ⟨"sock", "fd", ["7"]⟩)],
        [], [], []⟩ [("X", 42)] ⟨"sock", "fd", ["7"]⟩ =
      .ok ⟨"sock", .intT ⟨"resource-type", .DirInOut, false⟩ 4 false .intPlain,
        ["fd", "sock"], ["42", "5", "7"]⟩ ∧
    (["fd", "sock"].length = 2) ∧
    (["fd", "sock"].getLast? = some "sock") := by
  have h := claim_C7_resource_chain 2
    ⟨[], [], [("fd", ⟨"fd", "int32", ["X", "5"]⟩), ("sock", ⟨"sock", "fd", ["7"]⟩)],
      [], [], []⟩ [("X", 42)] ⟨"sock", "fd", ["7"]⟩
    [("fd", ⟨"fd", "int32", ["X", "5"]⟩), ("sock", ⟨"sock", "fd", ["7"]⟩)]
    ("fd", ⟨"fd", "int32", ["X", "5"]⟩) 4 rfl rfl rfl
  exact ⟨by exact h.1, rfl, rfl⟩

theorem alookup_filter_ne (m : List (StructKey × Struct)) (k k' : StructKey)
    (h : k' ≠ k) :
    alookup (m.filter (fun q => decide (q.1 ≠ k))) k' = alookup m k' := by
  induction m with
  | nil => rfl
  | cons a t ih =>
    obtain ⟨ak, av⟩ := a
    by_cases ha : ak = k
    · rw [List.filter_cons]
      rw [show (decide ((ak, av).1 ≠ k)) = false by simp [ha]]
      simp only [Bool.false_eq_true, if_false]
      rw [ih]
      rw [show alookup ((ak, av) :: t) k' = if ak = k' then some av else alookup t k' from rfl]
      rw [if_neg (by rw [ha]; exact fun he => h he.symm)]
    · rw [List.filter_cons]
      rw [show (decide ((ak, av).1 ≠ k)) = true by simp [ha]]
      simp only [if_true]
      rw [show alookup ((ak, av) :: List.filter (fun q => decide (q.1 ≠ k)) t) k' =
        if ak = k' then some av else alookup (List.filter (fun q => decide (q.1 ≠ k)) t) k' from rfl]
      rw [show alookup ((ak, av) :: t) k' = if ak = k' then some av else alookup t k' from rfl]
      by_cases he : ak = k'
      · rw [if_pos he, if_pos he]
      · rw [if_neg he, if_neg he, ih]

/-- Go map assignment semantics for the instance map: the inserted key maps
to the inserted value, all other keys are untouched. -/
theorem alookup_insertKV (m : List (StructKey × Struct)) (k : StructKey)
    (v : Struct) (k' : StructKey) :
    alookup (insertKV m k v) k' = if k = k' then some v else alookup m k' := by
  unfold insertKV
  rw [show alookup ((k, v) :: List.filter (fun q => decide (q.1 ≠ k)) m) k' =
    if k = k' then some v else alookup (List.filter (fun q => decide (q.1 ≠ k)) m) k' from rfl]
  by_cases h : k = k'
  · rw [if_pos h, if_pos h]
  · rw [if_neg h, if_neg h]
    exact alookup_filter_ne m k k' (fun he => h he.symm)

/-- Invariant of pass 1: every registered instance is the canonical struct
stored in the description under the key's struct name. -/
def GoodMap (desc : Description) (m : List (StructKey × Struct)) : Prop :=
  ∀ k v, alookup m k = some v → alookup desc.structs k.name = some v

theorem good_insert (desc : Description) (m : List (StructKey × Struct))
    (k : StructKey) (v : Struct)
    (hv : alookup desc.structs k.name = some v)
    (hg : GoodMap desc m) : GoodMap desc (insertKV m k v) := by
  intro k' v' h
  rw [alookup_insertKV] at h
  by_cases he : k = k'
  · rw [if_pos he] at h
    injection h with h1
    rw [← he, ← h1]
    exact hv
  · rw [if_neg he] at h
    exact hg k' v' h

theorem good_insDirs (desc : Description) (nm fl : String) (v : Struct)
    (hv : alookup desc.structs nm = some v) :
    ∀ (ds : List String) (m : List (StructKey × Struct)),
    GoodMap desc m → GoodMap desc (insDirs nm fl v ds m) := by
  intro ds
  induction ds with
  | nil => intro m hg; exact hg
  | cons d ds ih =>
    intro m hg
    exact ih _ (good_insert desc m ⟨nm, fl, d⟩ v hv hg)

theorem good_insFlds (desc : Description) :
    ∀ (flds : List (String × String × List String)) (m : List (StructKey × Struct)),
    GoodMap desc m → GoodMap desc (insFlds desc flds m) := by
  intro flds
  induction flds with
  | nil => intro m hg; exact hg
  | cons fld rest ih =>
    intro m hg
    show GoodMap desc (insFlds desc rest _)
    apply ih
    cases halk : alookup desc.structs fld.2.1 with
    | none => exact hg
    | some innerStr => exact good_insDirs desc fld.2.1 fld.1 innerStr halk dirs3 m hg

theorem good_registerStruct (desc : Description) (q : String × Struct)
    (hq : alookup desc.structs q.2.name = some q.2)
    (m : List (StructKey × Struct)) (hg : GoodMap desc m) :
    GoodMap desc (registerStruct desc m q) :=
  good_insFlds desc q.2.flds _ (good_insDirs desc q.2.name "" q.2 hq dirs3 m hg)

theorem good_regAll (desc : Description) :
    ∀ (l : List (String × Struct)) (m : List (StructKey × Struct)),
    (∀ p ∈ l, alookup desc.structs p.2.name = some p.2) →
    GoodMap desc m → GoodMap desc (regAll desc l m) := by
  intro l
  induction l with
  | nil => intro m _ hg; exact hg
  | cons q rest ih =>
    intro m hcan hg
    exact ih _ (fun p hp => hcan p (List.mem_cons_of_mem q hp))
      (good_registerStruct desc q (hcan q (List.mem_cons_self q rest)) m hg)

/-- In a table with unique keys, every member is found at its own key. -/
theorem alookup_mem_nodup :
    ∀ (l : List (String × Struct)), (l.map Prod.fst).Nodup →
    ∀ p ∈ l, alookup l p.1 = some p.2 := by
  intro l
  induction l with
  | nil => intro _ p hp; exact absurd hp (by simp)
  | cons a t ih =>
    intro hnd p hp
    obtain ⟨ak, av⟩ := a
    rw [List.map_cons, List.nodup_cons] at hnd
    cases hp with
    | head => simp [alookup]
    | tail _ hm =>
      rw [show alookup ((ak, av) :: t) p.1 = if ak = p.1 then some av else alookup t p.1 from rfl]
      rw [if_neg (fun he => hnd.1 (by rw [he]; exact List.mem_map.mpr ⟨p, hm, rfl⟩))]
      exact ih hnd.2 p hm

theorem good_buildStructMap (desc : Description)
    (hnd : (desc.structs.map Prod.fst).Nodup)
    (hwf : ∀ p ∈ desc.structs, p.2.name = p.1) :
    GoodMap desc (buildStructMap desc) := by
  apply good_regAll desc desc.structs []
  · intro p hp
    rw [hwf p hp]
    exact alookup_mem_nodup desc.structs hnd p hp
  · intro k v h
    exact Option.noConfusion h

theorem pres_insert (desc : Description) (m : List (StructKey × Struct))
    (k : StructKey) (v : Struct) (sName f d : String) (S : Struct)
    (hS : alookup desc.structs sName = some S)
    (hv : alookup desc.structs k.name = some v)
    (hp : alookup m ⟨sName, f, d⟩ = some S) :
    alookup (insertKV m k v) ⟨sName, f, d⟩ = some S := by
  rw [alookup_insertKV]
  by_cases he : k = (⟨sName, f, d⟩ : StructKey)
  · rw [if_pos he]
    rw [he] at hv
    have hveq : some v = some S := hv.symm.trans hS
    injection hveq with hveq1
    rw [hveq1]
  · rw [if_neg he]
    exact hp

theorem pres_insDirs (desc : Description) (nm fl : String) (v : Struct)
    (sName f d : String) (S : Struct)
    (hS : alookup desc.structs sName = some S)
    (hv : alookup desc.structs nm = some v) :
    ∀ (ds : List String) (m : List (StructKey × Struct)),
    alookup m ⟨sName, f, d⟩ = some S →
    alookup (insDirs nm fl v ds m) ⟨sName, f, d⟩ = some S := by
  intro ds
  induction ds with
  | nil => intro m hp; exact hp
  | cons d' ds ih =>
    intro m hp
    exact ih _ (pres_insert desc m ⟨nm, fl, d'⟩ v sName f d S hS hv hp)

theorem estab_insDirs (desc : Description) (sName f d : String) (S : Struct)
    (hS : alookup desc.structs sName = some S) :
    ∀ (ds : List String) (m : List (StructKey × Struct)), d ∈ ds →
    alookup (insDirs sName f S ds m) ⟨sName, f, d⟩ = some S := by
  intro ds
  induction ds with
  | nil => intro m h; exact absurd h (by simp)
  | cons d' ds ih =>
    intro m hm
    cases List.mem_cons.mp hm with
    | inl he =>
      subst he
      apply pres_insDirs desc sName f S sName f d S hS hS ds
      rw [alookup_insertKV]
      rw [if_pos rfl]
    | inr hm' => exact ih _ hm'

theorem pres_insFlds (desc : Description) (sName f d : String) (S : Struct)
    (hS : alookup desc.structs sName = some S) :
    ∀ (flds : List (String × String × List String)) (m : List (StructKey × Struct)),
    alookup m ⟨sName, f, d⟩ = some S →
    alookup (insFlds desc flds m) ⟨sName, f, d⟩ = some S := by
  intro flds
  induction flds with
  | nil => intro m hp; exact hp
  | cons fld rest ih =>
    intro m hp
    show alookup (insFlds desc rest _) _ = _
    apply ih
    cases halk : alookup desc.structs fld.2.1 with
    | none => exact hp
    | some innerStr =>
      exact pres_insDirs desc fld.2.1 fld.1 innerStr sName f d S hS halk dirs3 m hp

theorem estab_insFlds (desc : Description) (sName f d : String) (S : Struct)
    (ps : List String)
    (hS : alookup desc.structs sName = some S) (hd : d ∈ dirs3) :
    ∀ (flds : List (String × String × List String)) (m : List (StructKey × Struct)),
    (f, sName, ps) ∈ flds →
    alookup (insFlds desc flds m) ⟨sName, f, d⟩ = some S := by
  intro flds
  induction flds with
  | nil => intro m h; exact absurd h (by simp)
  | cons fld rest ih =>
    intro m hm
    cases List.mem_cons.mp hm with
    | inl he =>
      have he' : fld = (f, sName, ps) := he.symm
      subst he'
      show alookup (insFlds desc rest _) _ = _
      apply pres_insFlds desc sName f d S hS rest
      cases halk : alookup desc.structs (f, sName, ps).2.1 with
      | none => rw [hS] at halk; exact Option.noConfusion halk
      | some innerStr =>
        have his : innerStr = S := by
          have h2 := halk.symm.trans hS
          injection h2
        rw [his]
        exact estab_insDirs desc sName f d S hS dirs3 _ hd
    | inr hm' => exact ih _ hm'

theorem pres_registerStruct (desc : Description) (q : String × Struct)
    (sName f d : String) (S : Struct)
    (hS : alookup desc.structs sName = some S)
    (hq : alookup desc.structs q.2.name = some q.2)
    (m : List (StructKey × Struct))
    (hp : alookup m ⟨sName, f, d⟩ = some S) :
    alookup (registerStruct desc m q) ⟨sName, f, d⟩ = some S :=
  pres_insFlds desc sName f d S hS q.2.flds _
    (pres_insDirs desc q.2.name "" q.2 sName f d S hS hq dirs3 m hp)

theorem estab_registerStruct (desc : Description) (q : String × Struct)
    (sName f d : String) (S : Struct) (ps : List String)
    (hS : alookup desc.structs sName = some S) (hd : d ∈ dirs3)
    (hfld : (f, sName, ps) ∈ q.2.flds)
    (m : List (StructKey × Struct)) :
    alookup (registerStruct desc m q) ⟨sName, f, d⟩ = some S :=
  estab_insFlds desc sName f d S ps hS hd q.2.flds _ hfld

theorem pres_regAll (desc : Description) (sName f d : String) (S : Struct)
    (hS : alookup desc.structs sName = some S) :
    ∀ (l : List (String × Struct)) (m : List (StructKey × Struct)),
    (∀ p ∈ l, alookup desc.structs p.2.name = some p.2) →
    alookup m ⟨sName, f, d⟩ = some S →
    alookup (regAll desc l m) ⟨sName, f, d⟩ = some S := by
  intro l
  induction l with
  | nil => intro m _ hp; exact hp
  | cons q rest ih =>
    intro m hcan hp
    exact ih _ (fun p hp2 => hcan p (List.mem_cons_of_mem q hp2))
      (pres_registerStruct desc q sName f d S hS
        (hcan q (List.mem_cons_self q rest)) m hp)

theorem regAll_append (desc : Description) :
    ∀ (l1 l2 : List (String × Struct)) (m : List (StructKey × Struct)),
    regAll desc (l1 ++ l2) m = regAll desc l2 (regAll desc l1 m) := by
  intro l1
  induction l1 with
  | nil => intro l2 m; rfl
  | cons q rest ih => intro l2 m; exact ih l2 (registerStruct desc m q)

/-- Pass 1 presence: a struct name used by some field of some registered
struct is registered, under every direction, with the canonical struct as
its instance. -/
theorem presence_buildStructMap (desc : Description)
    (sName f d : String) (S : Struct) (ps : List String) (p1 : String × Struct)
    (hnd : (desc.structs.map Prod.fst).Nodup)
    (hwf : ∀ p ∈ desc.structs, p.2.name = p.1)
    (hS : alookup desc.structs sName = some S)
    (hp1 : p1 ∈ desc.structs) (hfld : (f, sName, ps) ∈ p1.2.flds)
    (hd : d ∈ dirs3) :
    alookup (buildStructMap desc) ⟨sName, f, d⟩ = some S := by
  have hcan : ∀ p ∈ desc.structs, alookup desc.structs p.2.name = some p.2 := by
    intro p hp
    rw [hwf p hp]
    exact alookup_mem_nodup desc.structs hnd p hp
  obtain ⟨l1, l2, hsplit⟩ := List.append_of_mem hp1
  unfold buildStructMap
  rw [hsplit, regAll_append]
  show alookup (regAll desc l2 (registerStruct desc _ p1)) _ = _
  apply pres_regAll desc sName f d S hS l2
  · intro p hp
    exact hcan p (by rw [hsplit]; exact List.mem_append_right l1 (List.mem_cons_of_mem p1 hp))
  · exact estab_registerStruct desc p1 sName f d S ps hS hd hfld _

/-- Pass 2 correspondence: a key registered with instance `s` is filled
with exactly the compilation of `s` under that key. -/
theorem fill_lookup (fuel : Nat) (desc : Description) (consts : Consts) :
    ∀ (m : List (StructKey × Struct)) (m' : List (StructKey × CompiledStruct))
      (k : StructKey) (s : Struct),
    fillStructFields fuel desc consts m = .ok m' →
    alookup m k = some s →
    ∃ c, clookup m' k = some c ∧ compileStruct fuel desc consts k s = .ok c := by
  intro m
  induction m with
  | nil => intro m' k s hf ha; exact Option.noConfusion ha
  | cons p rest ih =>
    intro m' k s hf ha
    obtain ⟨k0, s0⟩ := p
    unfold fillStructFields at hf
    split at hf
    · exact Except.noConfusion hf
    · rename_i c0 heq1
      split at hf
      · exact Except.noConfusion hf
      · rename_i m'' heq2
        injection hf with hf1
        rw [show alookup ((k0, s0) :: rest) k =
          if k0 = k then some s0 else alookup rest k from rfl] at ha
        by_cases he : k0 = k
        · rw [if_pos he] at ha
          injection ha with ha1
          refine ⟨c0, ?_, ?_⟩
          · rw [← hf1]
            rw [show clookup ((k0, c0) :: m'') k =
              if k0 = k then some c0 else clookup m'' k from rfl]
            rw [if_pos he]
          · rw [← he, ← ha1]
            exact heq1
        · rw [if_neg he] at ha
          obtain ⟨c, hc, hcs⟩ := ih m'' k s heq2 ha
          refine ⟨c, ?_, hcs⟩
          rw [← hf1]
          rw [show clookup ((k0, c0) :: m'') k =
            if k0 = k then some c0 else clookup m'' k from rfl]
          rw [if_neg he]
          exact hc

/-- The shape of a filled instance: display name from the key, direction
from the key, fields compiled from the instance struct's field list under
the key's direction. -/
theorem compileStruct_parts (fuel : Nat) (desc : Description) (consts : Consts)
    (k : StructKey) (s : Struct) (c : CompiledStruct)
    (h : compileStruct fuel desc consts k s = .ok c) :
    c.name = (if k.field = "" then k.name else k.field) ∧ c.dir = k.dir ∧
    ∃ sk, compileFields fuel desc consts s.name k.dir s.flds "" = .ok (c.fields, sk) := by
  unfold compileStruct at h
  split at h
  · exact Except.noConfusion h
  · split at h
    · exact Except.noConfusion h
    · rename_i q heq
      injection h with h1
      rw [← h1]
      exact ⟨rfl, rfl, q.2, heq⟩

/-- C6: struct/union usage identity.  Two usages with the same
(struct name, field name, direction) triple produce literally the same
reference key, and the key determines identity component-wise; a struct
name used under two different field names yields two distinct keys, both
registered and filled, each carrying its own field list compiled from the
same canonical struct under the shared direction (hence equal in content
when the definitions coincide, but held by distinct instances); and the
compiler emits for any struct-typed token exactly the reference keyed by
(type name, calling field name, direction). -/
theorem claim_C6_struct_instance_identity
    (fuel : Nat) (desc : Description) (consts : Consts)
    (sName f1 f2 d : String) (ps1 ps2 : List String)
    (p1 p2 : String × Struct) (S : Struct)
    (m : List (StructKey × CompiledStruct))
    (hnd : (desc.structs.map Prod.fst).Nodup)
    (hwf : ∀ p ∈ desc.structs, p.2.name = p.1)
    (hS : alookup desc.structs sName = some S)
    (hp1 : p1 ∈ desc.structs) (hf1 : (f1, sName, ps1) ∈ p1.2.flds)
    (hp2 : p2 ∈ desc.structs) (hf2 : (f2, sName, ps2) ∈ p2.2.flds)
    (hne : f1 ≠ f2) (hne1 : f1 ≠ "") (hne2 : f2 ≠ "") (hd : d ∈ dirs3)
    (hfill : fillStructFields fuel desc consts (buildStructMap desc) = .ok m) :
    ((⟨sName, f1, d⟩ : StructKey) ≠ ⟨sName, f2, d⟩) ∧
    (∀ k k' : StructKey,
      k = k' ↔ (k.name = k'.name ∧ k.field = k'.field ∧ k.dir = k'.dir)) ∧
    (∃ c1 c2, clookup m ⟨sName, f1, d⟩ = some c1 ∧ clookup m ⟨sName, f2, d⟩ = some c2 ∧
      compileStruct fuel desc consts ⟨sName, f1, d⟩ S = .ok c1 ∧
      compileStruct fuel desc consts ⟨sName, f2, d⟩ S = .ok c2 ∧
      c1.name = f1 ∧ c2.name = f2 ∧ c1.fields = c2.fields) ∧
    (∀ (fuel' : Nat) (parent nm typ dirStr : String) (desc' : Description)
       (consts' : Consts) (isField : Bool) (skip : String) (s' : Struct),
      classify typ = .other → beginsWith typ "unnamed" = false →
      alookup desc'.structs typ = some s' →
      generateArg (fuel' + 1) parent nm typ dirStr [] desc' consts' false isField skip =
        .ok (.structRef ⟨typ, nm, dirStr⟩, skip)) := by
  refine ⟨?_, ?_, ?_, ?_⟩
  · intro he
    injection he with hA hB hC
    exact hne hB
  · intro k k'
    cases k
    cases k'
    simp [StructKey.mk.injEq]
  · have hpres1 := presence_buildStructMap desc sName f1 d S ps1 p1 hnd hwf hS hp1 hf1 hd
    have hpres2 := presence_buildStructMap desc sName f2 d S ps2 p2 hnd hwf hS hp2 hf2 hd
    obtain ⟨c1, hc1, hcs1⟩ :=
      fill_lookup fuel desc consts (buildStructMap desc) m ⟨sName, f1, d⟩ S hfill hpres1
    obtain ⟨c2, hc2, hcs2⟩ :=
      fill_lookup fuel desc consts (buildStructMap desc) m ⟨sName, f2, d⟩ S hfill hpres2
    obtain ⟨hn1, hd1, sk1, hflds1⟩ :=
      compileStruct_parts fuel desc consts ⟨sName, f1, d⟩ S c1 hcs1
    obtain ⟨hn2, hd2, sk2, hflds2⟩ :=
      compileStruct_parts fuel desc consts ⟨sName, f2, d⟩ S c2 hcs2
    refine ⟨c1, c2, hc1, hc2, hcs1, hcs2, ?_, ?_, ?_⟩
    · rw [hn1]
      exact if_neg hne1
    · rw [hn2]
      exact if_neg hne2
    · have h12 := hflds1.symm.trans hflds2
      simp only [Except.ok.injEq, Prod.mk.injEq] at h12
      exact h12.1
  · intro fuel' parent nm typ dirStr desc' consts' isField skip s' hcl hbw hs'
    unfold generateArg
    rw [generateArgCore_other fuel' parent nm typ dirStr [] desc' consts' isField skip hcl]
    simp only [genDefault, stripOpt, hbw, hs']
    simp

/-- Witness description for C6: struct `S` used by the two fields `f1` and
`f2` of struct `P1`. -/
def SW : Struct := ⟨"S", [("x", "int32", [])], false, false, false, 0⟩

def P1W : Struct := ⟨"P1", [("f1", "S", []), ("f2", "S", [])], false, false, false, 0⟩

def descW : Description := ⟨[], [("S", SW), ("P1", P1W)], [], [], [], []⟩

/-- The filled instance map of `descW` (pass 1 then pass 2). -/
def mW : List (StructKey × CompiledStruct) :=
  [(⟨"S", "f2", "inout"⟩, ⟨false, "f2", "inout", false, false, 0,
      [.intT ⟨"x", .DirInOut, false⟩ 4 false .intPlain]⟩),
   (⟨"S", "f2", "out"⟩, ⟨false, "f2", "out", false, false, 0,
      [.intT ⟨"x", .DirOut, false⟩ 4 false .intPlain]⟩),
   (⟨"S", "f2", "in"⟩, ⟨false, "f2", "in", false, false, 0,
      [.intT ⟨"x", .DirIn, false⟩ 4 false .intPlain]⟩),
   (⟨"S", "f1", "inout"⟩, ⟨false, "f1", "inout", false, false, 0,
      [.intT ⟨"x", .DirInOut, false⟩ 4 false .intPlain]⟩),
   (⟨"S", "f1", "out"⟩, ⟨false, "f1", "out", false, false, 0,
      [.intT ⟨"x", .DirOut, false⟩ 4 false .intPlain]⟩),
   (⟨"S", "f1", "in"⟩, ⟨false, "f1", "in", false, false, 0,
      [.intT ⟨"x", .DirIn, false⟩ 4 false .intPlain]⟩),
   (⟨"P1", "", "inout"⟩, ⟨false, "P1", "inout", false, false, 0,
      [.structRef ⟨"S", "f1", "inout"⟩, .structRef ⟨"S", "f2", "inout"⟩]⟩),
   (⟨"P1", "", "out"⟩, ⟨false, "P1", "out", false, false, 0,
      [.structRef ⟨"S", "f1", "out"⟩, .structRef ⟨"S", "f2", "out"⟩]⟩),
   (⟨"P1", "", "in"⟩, ⟨false, "P1", "in", false, false, 0,
      [.structRef ⟨"S", "f1", "in"⟩, .structRef ⟨"S", "f2", "in"⟩]⟩),
   (⟨"S", "", "inout"⟩, ⟨false, "S", "inout", false, false, 0,
      [.intT ⟨"x", .DirInOut, false⟩ 4 false .intPlain]⟩),
   (⟨"S", "", "out"⟩, ⟨false, "S", "out", false, false, 0,
      [.intT ⟨"x", .DirOut, false⟩ 4 false .intPlain]⟩),
   (⟨"S", "", "in"⟩, ⟨false, "S", "in", false, false, 0,
      [.intT ⟨"x", .DirIn, false⟩ 4 false .intPlain]⟩)]

/-- Witness for C6 at the concrete description: the two field keys differ,
key equality is component-wise, both instances are filled with their own
(equal-content) field lists, and a use site emits the reference keyed by
(type, field, direction). -/
theorem claim_C6_witness :
    ((⟨"S", "f1", "in"⟩ : StructKey) ≠ ⟨"S", "f2", "in"⟩) ∧
    ((⟨"S", "f1", "in"⟩ : StructKey) = ⟨"S", "f1", "out"⟩ ↔
      ("S" = "S" ∧ "f1" = "f1" ∧ "in" = "out")) ∧
    (∃ c1 c2, clookup mW ⟨"S", "f1", "in"⟩ = some c1 ∧
      clookup mW ⟨"S", "f2", "in"⟩ = some c2 ∧
      compileStruct 1 descW [] ⟨"S", "f1", "in"⟩ SW = .ok c1 ∧
      compileStruct 1 descW [] ⟨"S", "f2", "in"⟩ SW = .ok c2 ∧
      c1.name = "f1" ∧ c2.name = "f2" ∧ c1.fields = c2.fields) ∧
    generateArg 1 "P1" "f1" "S" "in" [] descW [] false true "" =
      .ok (.structRef ⟨"S", "f1", "in"⟩, "") := by
  have h := claim_C6_struct_instance_identity 1 descW [] "S" "f1" "f2" "in" [] []
    ("P1", P1W) ("P1", P1W) SW mW (by decide) (by decide) rfl (by decide)
    (by decide) (by decide) (by decide) (by decide) (by decide) (by decide)
    (by decide) (by rfl)
  exact ⟨h.1, h.2.1 ⟨"S", "f1", "in"⟩ ⟨"S", "f1", "out"⟩, h.2.2.1,
    h.2.2.2 0 "P1" "f1" "S" "in" descW [] true "" SW rfl (by decide) rfl⟩

end Sysgen
